import Mathlib

/-!
Verification of the XML-backed configuration persistence layer of
`src/src/interface/xmlfunctions.cpp` (storj/filezilla): the `CXmlFile`
load/save engine with backup rotation, and the `GetServer`/`SetServer`
site codec.

The C++ code is shallowly embedded: the pugixml tree is modelled as a
nested inductive of elements, the filesystem as a partial map from path
strings to file entries, and each C++ function as a Lean function over
those types.  Collaborator primitives that are not part of the excerpt
(xmlutils accessors, libfilezilla base64 / public-key / filesystem
primitives, wxWidgets file functions) are modelled from the spec; each
such definition carries a doc comment saying so.
-/

set_option maxHeartbeats 1000000

/-! ## XML tree model

A pugi element node: a name, attributes, its own concatenated pcdata
text, and a list of child elements. -/

inductive XmlElem where
  | node (name : String) (attrs : List (String × String)) (text : String)
      (children : List XmlElem)

def XmlElem.name : XmlElem → String
  | .node n _ _ _ => n

def XmlElem.attrs : XmlElem → List (String × String)
  | .node _ a _ _ => a

def XmlElem.text : XmlElem → String
  | .node _ _ t _ => t

def XmlElem.children : XmlElem → List XmlElem
  | .node _ _ _ c => c

/-- Modelled from the spec: pugi `node.child(name)` — the first child
element carrying the given name. -/
def XmlElem.child (e : XmlElem) (n : String) : Option XmlElem :=
  e.children.find? (fun c => c.name = n)

/-- Modelled from the spec: pugi `node.attribute(name).value()` — empty
string when the attribute is absent. -/
def XmlElem.attribute (e : XmlElem) (n : String) : String :=
  ((e.attrs.find? (fun a => a.1 = n)).map Prod.snd).getD ""

/-- Modelled from the spec: pugi attribute assignment — replaces the value
of an existing attribute or appends a new one. -/
def XmlElem.setAttr (e : XmlElem) (n v : String) : XmlElem :=
  match e with
  | .node nm attrs t ch =>
    if (attrs.find? (fun a => a.1 = n)).isSome then
      .node nm (attrs.map (fun a => if a.1 = n then (n, v) else a)) t ch
    else
      .node nm (attrs ++ [(n, v)]) t ch

/-- Modelled from the spec: `GetTextElement(node, name)` of xmlutils (not in
the excerpt) — the text content of the first child with that name, or the
empty string. -/
def GetTextElement (node : XmlElem) (name : String) : String :=
  ((node.child name).map XmlElem.text).getD ""

/-- Modelled from the spec: `GetTextElement(node)` — the node's own text
content. -/
def GetTextElementSelf (node : XmlElem) : String :=
  node.text

/-- Modelled from the spec: whitespace trimming of both ends (`fz::trimmed`,
not in the excerpt). -/
def strTrim (s : String) : String :=
  ⟨((s.data.dropWhile Char.isWhitespace).reverse.dropWhile
      Char.isWhitespace).reverse⟩

/-- Modelled from the spec: `std::wstring::substr(0, n)`. -/
def strTake (s : String) (n : Nat) : String :=
  ⟨s.data.take n⟩

/-- Modelled from the spec: `GetTextElement_Trimmed` — like `GetTextElement`
but with surrounding whitespace removed. -/
def GetTextElement_Trimmed (node : XmlElem) (name : String) : String :=
  strTrim (GetTextElement node name)

/-- Modelled from the spec: `GetTextElement_Trimmed(node)` on the node
itself. -/
def GetTextElement_TrimmedSelf (node : XmlElem) : String :=
  strTrim (GetTextElementSelf node)

/-- Modelled from the spec: `GetTextAttribute` of xmlutils. -/
def GetTextAttribute (node : XmlElem) (name : String) : String :=
  node.attribute name

/-! ## Decimal text round-trip

The codec stores numeric fields as decimal element text; these are the
printing and parsing primitives and the proof that parsing inverts
printing. -/

def digitChar (d : Nat) : Char := Char.ofNat (48 + d)

def charDigit (c : Char) : Option Nat :=
  if 48 ≤ c.toNat ∧ c.toNat ≤ 57 then some (c.toNat - 48) else none

def natDigitsAux : Nat → Nat → List Nat
  | 0, _ => []
  | fuel+1, n => if n = 0 then [] else natDigitsAux fuel (n / 10) ++ [n % 10]

def natDigits (n : Nat) : List Nat :=
  if n = 0 then [0] else natDigitsAux n n

def digitsVal (l : List Nat) : Nat :=
  l.foldl (fun a d => a * 10 + d) 0

def natToStr (n : Nat) : String :=
  ⟨(natDigits n).map digitChar⟩

def intToStr (i : Int) : String :=
  ⟨if i < 0 then '-' :: (natDigits i.natAbs).map digitChar
    else (natDigits i.natAbs).map digitChar⟩

def parseDigitList : List Char → Option (List Nat)
  | [] => some []
  | c :: t =>
    match charDigit c, parseDigitList t with
    | some d, some ds => some (d :: ds)
    | _, _ => none

def parseDigitsNE (l : List Char) : Option Nat :=
  if l.isEmpty then none else (parseDigitList l).map digitsVal

def parseIntList (l : List Char) : Option Int :=
  match l with
  | [] => none
  | c :: rest =>
    if c = '-' then (parseDigitsNE rest).map (fun n => -(Int.ofNat n))
    else (parseDigitsNE (c :: rest)).map Int.ofNat

/-- Modelled from the spec: strict decimal parsing of element text — an
absent or non-numeric text yields the supplied default (`GetTextElementInt`
of xmlutils, not in the excerpt). -/
def parseIntDef (s : String) (dflt : Int) : Int :=
  (parseIntList s.data).getD dflt

/-- Modelled from the spec: `GetTextElementInt(node, name, def)`. -/
def GetTextElementInt (node : XmlElem) (name : String) (dflt : Int) : Int :=
  parseIntDef (GetTextElement node name) dflt

theorem digitsVal_append (l : List Nat) (d : Nat) :
    digitsVal (l ++ [d]) = 10 * digitsVal l + d := by
  simp [digitsVal, List.foldl_append]
  ring

theorem natDigitsAux_val : ∀ fuel n, n ≤ fuel →
    digitsVal (natDigitsAux fuel n) = n := by
  intro fuel
  induction fuel with
  | zero => intro n h; interval_cases n; simp [natDigitsAux, digitsVal]
  | succ f ih =>
    intro n h
    by_cases h0 : n = 0
    · simp [natDigitsAux, h0, digitsVal]
    · have hdiv : n / 10 ≤ f := by
        have : n / 10 < n := Nat.div_lt_self (Nat.pos_of_ne_zero h0) (by omega)
        omega
      simp only [natDigitsAux, h0, if_false, digitsVal_append, ih _ hdiv]
      omega

theorem natDigits_val (n : Nat) : digitsVal (natDigits n) = n := by
  by_cases h : n = 0
  · simp [natDigits, h, digitsVal]
  · simp only [natDigits, h, if_false]
    exact natDigitsAux_val n n le_rfl

theorem natDigitsAux_lt : ∀ fuel n d, d ∈ natDigitsAux fuel n → d < 10 := by
  intro fuel
  induction fuel with
  | zero => intro n d h; simp [natDigitsAux] at h
  | succ f ih =>
    intro n d h
    by_cases h0 : n = 0
    · simp [natDigitsAux, h0] at h
    · simp only [natDigitsAux, h0, if_false, List.mem_append, List.mem_singleton] at h
      rcases h with h | h
      · exact ih _ _ h
      · subst h; exact Nat.mod_lt _ (by omega)

theorem natDigits_lt (n d : Nat) (h : d ∈ natDigits n) : d < 10 := by
  by_cases h0 : n = 0
  · simp [natDigits, h0] at h; omega
  · simp only [natDigits, h0, if_false] at h
    exact natDigitsAux_lt _ _ _ h

theorem natDigits_ne_nil (n : Nat) : natDigits n ≠ [] := by
  by_cases h0 : n = 0
  · simp [natDigits, h0]
  · obtain ⟨m, rfl⟩ : ∃ m, n = m + 1 := ⟨n - 1, by omega⟩
    simp [natDigits, natDigitsAux]

theorem charDigit_digitChar : ∀ d < 10, charDigit (digitChar d) = some d := by
  decide

theorem parseDigitList_map (l : List Nat) (h : ∀ d ∈ l, d < 10) :
    parseDigitList (l.map digitChar) = some l := by
  induction l with
  | nil => rfl
  | cons a t ih =>
    simp only [List.map_cons, parseDigitList]
    rw [charDigit_digitChar a (h a (List.mem_cons_self a t)),
      ih (fun d hd => h d (List.mem_cons_of_mem a hd))]

theorem parseDigitsNE_digits (l : List Nat) (hne : l ≠ []) (h : ∀ d ∈ l, d < 10) :
    parseDigitsNE (l.map digitChar) = some (digitsVal l) := by
  rw [parseDigitsNE, if_neg (by simp [List.isEmpty_iff, hne]), parseDigitList_map l h]
  rfl

theorem digitChar_ne_neg (d : Nat) (h : d < 10) : digitChar d ≠ '-' := by
  interval_cases d <;> decide

theorem parseIntList_intToStr (i : Int) : parseIntList (intToStr i).data = some i := by
  by_cases hneg : i < 0
  · have hd : (intToStr i).data = '-' :: (natDigits i.natAbs).map digitChar := by
      simp [intToStr, hneg]
    rw [hd]
    simp only [parseIntList, if_pos rfl]
    rw [parseDigitsNE_digits _ (natDigits_ne_nil _) (natDigits_lt _)]
    simp only [Option.map_some', natDigits_val, Option.some.injEq]
    simp only [Int.ofNat_eq_coe, if_true, Option.some.injEq]
    omega
  · have hd : (intToStr i).data = (natDigits i.natAbs).map digitChar := by
      simp [intToStr, hneg]
    rw [hd]
    obtain ⟨d, t, hdt⟩ : ∃ d t, natDigits i.natAbs = d :: t := by
      cases h : natDigits i.natAbs with
      | nil => exact absurd h (natDigits_ne_nil _)
      | cons d t => exact ⟨d, t, rfl⟩
    rw [hdt]
    simp only [List.map_cons, parseIntList]
    have hdlt : d < 10 := natDigits_lt _ d (by rw [hdt]; exact List.mem_cons_self d t)
    rw [if_neg (digitChar_ne_neg d hdlt)]
    have hpd : parseDigitsNE (digitChar d :: t.map digitChar) = some (digitsVal (d :: t)) := by
      have h3 := parseDigitsNE_digits (d :: t) (by simp)
        (fun x hx => natDigits_lt _ x (by rw [hdt]; exact hx))
      rwa [List.map_cons] at h3
    rw [hpd]
    simp only [Option.map_some', Option.some.injEq]
    have hval : digitsVal (d :: t) = i.natAbs := by
      rw [← hdt, natDigits_val]
    rw [hval]
    simp only [Int.ofNat_eq_coe]
    omega

theorem parseIntDef_intToStr (i : Int) (dflt : Int) :
    parseIntDef (intToStr i) dflt = i := by
  simp [parseIntDef, parseIntList_intToStr]

theorem parseIntDef_natToStr (n : Nat) (dflt : Int) :
    parseIntDef (natToStr n) dflt = n := by
  have hnn : ¬((n : Int) < 0) := by omega
  have : natToStr n = intToStr n := by
    simp [natToStr, intToStr, hnn]
  rw [this, parseIntDef_intToStr]

/-! ## Collaborator primitives: string conversion, base64, public keys

These are libfilezilla primitives consumed by the codec; none of them is
part of the excerpt, so they are modelled from the spec ("base64
encode/decode", "a public-key parse/serialize primitive", wide/narrow
string conversion treated as identity).  The only property of base64 the
code relies on is that decoding inverts encoding. -/

/-- Modelled from the spec: `fz::to_utf8` — narrow/wide conversion is
identity on the abstract string type. -/
def toUtf8 (s : String) : String := s

/-- Modelled from the spec: `fz::to_wstring_from_utf8`. -/
def toWStringFromUtf8 (s : String) : String := s

def sixBitChar (k : Nat) : Char := Char.ofNat (48 + k)

def sixBitVal (c : Char) : Option Nat :=
  if 48 ≤ c.toNat ∧ c.toNat < 112 then some (c.toNat - 48) else none

def encodeCodepoint (n : Nat) : List Char :=
  [sixBitChar (n / 262144 % 64), sixBitChar (n / 4096 % 64),
   sixBitChar (n / 64 % 64), sixBitChar (n % 64)]

/-- Modelled from the spec: `fz::base64_encode` — a radix-64 coding of the
text, four alphabet characters per code point. -/
def base64EncodeList : List Char → List Char
  | [] => []
  | c :: t => encodeCodepoint c.toNat ++ base64EncodeList t

/-- Modelled from the spec: `fz::base64_decode`; `none` on malformed
input. -/
def base64DecodeList : List Char → Option (List Char)
  | [] => some []
  | a :: b :: c :: d :: t =>
    match sixBitVal a, sixBitVal b, sixBitVal c, sixBitVal d,
        base64DecodeList t with
    | some va, some vb, some vc, some vd, some rest =>
      some (Char.ofNat (((va * 64 + vb) * 64 + vc) * 64 + vd) :: rest)
    | _, _, _, _, _ => none
  | _ => none

def base64Encode (s : String) : String := ⟨base64EncodeList s.data⟩

/-- Modelled from the spec: decode failure yields an empty byte vector. -/
def base64Decode (s : String) : String := ⟨(base64DecodeList s.data).getD []⟩

theorem char_toNat_lt (c : Char) : c.toNat < 1114112 := by
  rcases c.valid with h | ⟨_, h2⟩
  · have : c.toNat < 55296 := h
    omega
  · have : c.toNat < 1114112 := h2
    omega

theorem char_ofNat_toNat_small (m : Nat) (h : m < 55296) :
    (Char.ofNat m).toNat = m := by
  unfold Char.ofNat
  rw [dif_pos (Or.inl (by omega : m < 0xd800))]
  rfl

theorem sixBitVal_sixBitChar (k : Nat) (h : k < 64) :
    sixBitVal (sixBitChar k) = some k := by
  have h1 : (Char.ofNat (48 + k)).toNat = 48 + k :=
    char_ofNat_toNat_small _ (by omega)
  simp [sixBitVal, sixBitChar, h1]
  omega

theorem base64DecodeList_encode (l : List Char) :
    base64DecodeList (base64EncodeList l) = some l := by
  induction l with
  | nil => rfl
  | cons c t ih =>
    have hn := char_toNat_lt c
    simp only [base64EncodeList, encodeCodepoint, List.cons_append,
      List.nil_append, base64DecodeList]
    rw [sixBitVal_sixBitChar _ (Nat.mod_lt _ (by omega)),
      sixBitVal_sixBitChar _ (Nat.mod_lt _ (by omega)),
      sixBitVal_sixBitChar _ (Nat.mod_lt _ (by omega)),
      sixBitVal_sixBitChar _ (Nat.mod_lt _ (by omega))]
    rw [show ([] : List Char).append (base64EncodeList t) = base64EncodeList t from rfl, ih]
    have harith :
        ((c.toNat / 262144 % 64 * 64 + c.toNat / 4096 % 64) * 64 +
          c.toNat / 64 % 64) * 64 + c.toNat % 64 = c.toNat := by
      omega
    simp only [harith, Char.ofNat_toNat]

theorem base64Decode_base64Encode (s : String) :
    base64Decode (base64Encode s) = s := by
  cases s with
  | mk data =>
    simp [base64Decode, base64Encode, base64DecodeList_encode]

/-- Modelled from the spec: an `fz::public_key` is carried in the node as
its base64 serialization; the model keeps that string.  A key string is
well formed when it is non-empty and uses only alphabet characters;
`from_base64` on anything else yields an invalid (absent) key. -/
def publicKeyWellFormed (s : String) : Bool :=
  s != "" && s.data.all (fun c => 48 ≤ c.toNat && c.toNat < 112)

/-- Modelled from the spec: `fz::public_key::from_base64`. -/
def publicKeyFromBase64 (s : String) : Option String :=
  if publicKeyWellFormed s then some s else none

/-- Modelled from the spec: `fz::public_key::to_base64`. -/
def publicKeyToBase64 (k : String) : String := k

theorem publicKeyFromBase64_toBase64 (k : String) (h : publicKeyWellFormed k) :
    publicKeyFromBase64 (publicKeyToBase64 k) = some k := by
  simp [publicKeyFromBase64, publicKeyToBase64, h]

/-! ## Site data model

The `Site` / `CServer` / `ProtectedCredentials` value types of the codec.
The class headers are not part of the excerpt, so the fields and the
validating setters are modelled from the spec (§3 data model).  Enum
casts in the source become `toNat`/`ofNat` on the Lean inductives. -/

/-- Modelled from the spec: upper bound of the `ServerProtocol` enumeration
(`ServerProtocol::MAX_VALUE`; the header is not in the excerpt, only the
inclusive range check matters). -/
def ServerProtocolMaxValue : Nat := 25

/-- Modelled from the spec: number of `ServerType` enumerants
(`SERVERTYPE_MAX`, exclusive bound). -/
def SERVERTYPE_MAX : Nat := 9

inductive LogonType where
  | anonymous
  | normal
  | account
  | key
  | interactive
  | ask
deriving DecidableEq

/-- Modelled from the spec: `LogonType::count`. -/
def LogonTypeCount : Nat := 6

def LogonType.toNat : LogonType → Nat
  | .anonymous => 0
  | .normal => 1
  | .account => 2
  | .key => 3
  | .interactive => 4
  | .ask => 5

/-- Modelled from the spec: `static_cast<LogonType>` of an in-range
integer. -/
def LogonType.fromNat (n : Nat) : LogonType :=
  match n with
  | 0 => .anonymous
  | 1 => .normal
  | 2 => .account
  | 3 => .key
  | 4 => .interactive
  | _ => .ask

theorem LogonType.fromNat_toNat (t : LogonType) : LogonType.fromNat t.toNat = t := by
  cases t <;> rfl

inductive PasvMode where
  | default
  | passive
  | active
deriving DecidableEq

inductive EncodingType where
  | auto
  | utf8
  | custom (name : String)
deriving DecidableEq

structure CServer where
  host : String
  port : Nat
  protocol : Nat
  serverType : Nat
  user : String
  timezoneOffset : Int
  pasvMode : PasvMode
  maximumMultipleConnections : Int
  encodingType : EncodingType
  postLoginCommands : List String
  bypassProxy : Bool
  name : String
  extraParameters : List (String × String)
deriving DecidableEq

structure Credentials where
  logonType : LogonType
  pass : String
  account : String
  keyFile : String
  encrypted : Option String
deriving DecidableEq

structure Site where
  server : CServer
  credentials : Credentials
deriving DecidableEq

/-- Modelled from the spec: the default-constructed `Site` a caller hands
to `GetServer`. -/
def defaultSite : Site :=
  { server :=
      { host := "", port := 21, protocol := 0, serverType := 0, user := "",
        timezoneOffset := 0, pasvMode := .default,
        maximumMultipleConnections := 0, encodingType := .auto,
        postLoginCommands := [], bypassProxy := false, name := "",
        extraParameters := [] },
    credentials :=
      { logonType := .anonymous, pass := "", account := "", keyFile := "",
        encrypted := none } }

/-- Modelled from the spec: `CServer::SetHost` fails on an empty host or a
port outside 1–65535. -/
def CServer.SetHost (sv : CServer) (host : String) (port : Int) : Option CServer :=
  if host = "" then none
  else if port < 1 ∨ port > 65535 then none
  else some { sv with host := host, port := port.toNat }

def CServer.SetProtocol (sv : CServer) (protocol : Nat) : CServer :=
  { sv with protocol := protocol }

def CServer.SetType (sv : CServer) (serverType : Nat) : CServer :=
  { sv with serverType := serverType }

/-- Modelled from the spec: timezone-offset validation — offsets beyond one
day (±1440 minutes) are rejected. -/
def CServer.SetTimezoneOffset (sv : CServer) (tz : Int) : Option CServer :=
  if tz > 1440 ∨ tz < -1440 then none
  else some { sv with timezoneOffset := tz }

def CServer.SetPasvMode (sv : CServer) (m : PasvMode) : CServer :=
  { sv with pasvMode := m }

def CServer.MaximumMultipleConnectionsSet (sv : CServer) (n : Int) : CServer :=
  { sv with maximumMultipleConnections := n }

/-- Modelled from the spec: `CServer::SetEncodingType` — a custom encoding
requires a non-empty encoding name. -/
def CServer.SetEncodingType (sv : CServer) (e : EncodingType) : Option CServer :=
  match e with
  | .custom nm => if nm = "" then none else some { sv with encodingType := e }
  | _ => some { sv with encodingType := e }

/-- Modelled from the spec: `CServer::ProtocolHasFeature(protocol,
ProtocolFeature::PostLoginCommands)` — only the FTP protocol family
supports post-login commands. -/
def protocolHasPostLoginCommands (protocol : Nat) : Bool :=
  protocol = 0 || protocol = 2 || protocol = 3 || protocol = 4

/-- Modelled from the spec: `CServer::SetPostLoginCommands` rejects a
non-empty command list for a protocol without the feature. -/
def CServer.SetPostLoginCommands (sv : CServer) (cmds : List String) : Option CServer :=
  if cmds.isEmpty || protocolHasPostLoginCommands sv.protocol then
    some { sv with postLoginCommands := cmds }
  else none

def CServer.SetBypassProxy (sv : CServer) (b : Bool) : CServer :=
  { sv with bypassProxy := b }

def CServer.SetName (sv : CServer) (n : String) : CServer :=
  { sv with name := n }

/-- Modelled from the spec: extra parameters are a name→value sink that
deduplicates by key (last write wins). -/
def setParamList (l : List (String × String)) (k v : String) :
    List (String × String) :=
  if l.any (fun p => p.1 = k) then
    l.map (fun p => if p.1 = k then (k, v) else p)
  else l ++ [(k, v)]

def CServer.SetExtraParameter (sv : CServer) (k v : String) : CServer :=
  { sv with extraParameters := setParamList sv.extraParameters k v }

def Site.SetLogonType (s : Site) (t : LogonType) : Site :=
  { s with credentials := { s.credentials with logonType := t } }

def Site.SetUser (s : Site) (u : String) : Site :=
  { s with server := { s.server with user := u } }

def Credentials.SetPass (c : Credentials) (p : String) : Credentials :=
  { c with pass := p }

/-- Modelled from the spec: `ProtectedCredentials::Protect` may encrypt a
plaintext password when a master encryption key is configured; modelled
with no master key configured, i.e. the identity transform. -/
def Credentials.Protect (c : Credentials) : Credentials := c

/-! ## Site codec: SetServer (xmlfunctions.cpp lines 447–547)

`SetServer` first removes every existing child of the node (which also
removes its pcdata text), then appends elements in the fixed source
order.  The element sequence is transcribed segment by segment. -/

def textElem (n v : String) : XmlElem := .node n [] v []

/-- Credential elements (source lines 466–495): `User`, then for
normal/account the `Pass` element (crypt or base64) and possibly
`Account`, otherwise `Keyfile` when non-empty. -/
def SetServerCredChildren (user : String) (credentials : Credentials) :
    List XmlElem :=
  if credentials.logonType ≠ .anonymous then
    [textElem "User" user] ++
    (if credentials.logonType = .normal ∨ credentials.logonType = .account then
      (match credentials.encrypted with
       | some k =>
         [XmlElem.node "Pass"
            [("encoding", "crypt"), ("pubkey", publicKeyToBase64 k)]
            (toUtf8 credentials.pass) []]
       | none =>
         [XmlElem.node "Pass" [("encoding", "base64")]
            (base64Encode (toUtf8 credentials.pass)) []]) ++
      (if credentials.logonType = .account then
        [textElem "Account" credentials.account]
      else [])
    else if credentials.keyFile ≠ "" then
      [textElem "Keyfile" credentials.keyFile]
    else [])
  else []

/-- Encoding-type elements (source lines 513–525). -/
def SetServerEncodingChildren (e : EncodingType) : List XmlElem :=
  match e with
  | .auto => [textElem "EncodingType" "Auto"]
  | .utf8 => [textElem "EncodingType" "UTF-8"]
  | .custom nm => [textElem "EncodingType" "Custom", textElem "CustomEncoding" nm]

/-- Post-login-command elements (source lines 527–535). -/
def SetServerPostLoginChildren (protocol : Nat) (cmds : List String) :
    List XmlElem :=
  if protocolHasPostLoginCommands protocol && !cmds.isEmpty then
    [XmlElem.node "PostLoginCommands" [] ""
      (cmds.map (fun c => textElem "Command" c))]
  else []

/-- Leading scalar elements (source lines 459–462). -/
def SetServerHeadChildren (sv : CServer) : List XmlElem :=
  [textElem "Host" sv.host,
   textElem "Port" (natToStr sv.port),
   textElem "Protocol" (natToStr sv.protocol),
   textElem "Type" (natToStr sv.serverType)]

/-- Scalar elements after the credential block (source lines 496–511). -/
def SetServerMidChildren (lt : LogonType) (sv : CServer) : List XmlElem :=
  [textElem "Logontype" (natToStr lt.toNat),
   textElem "TimezoneOffset" (intToStr sv.timezoneOffset),
   textElem "PasvMode"
     (match sv.pasvMode with
      | .passive => "MODE_PASSIVE"
      | .active => "MODE_ACTIVE"
      | .default => "MODE_DEFAULT"),
   textElem "MaximumMultipleConnections" (intToStr sv.maximumMultipleConnections)]

/-- Trailing elements (source lines 537–546): `BypassProxy`, the optional
`Name`, and the extra parameters. -/
def SetServerTailChildren (sv : CServer) : List XmlElem :=
  [textElem "BypassProxy" (if sv.bypassProxy then "1" else "0")] ++
  (if sv.name ≠ "" then [textElem "Name" sv.name] else []) ++
  sv.extraParameters.map
    (fun p => XmlElem.node "Parameter" [("Name", p.1)] p.2 [])

def SetServerChildren (site : Site) : List XmlElem :=
  let credentials := site.credentials.Protect
  SetServerHeadChildren site.server ++
  SetServerCredChildren site.server.user credentials ++
  SetServerMidChildren credentials.logonType site.server ++
  SetServerEncodingChildren site.server.encodingType ++
  SetServerPostLoginChildren site.server.protocol site.server.postLoginCommands ++
  SetServerTailChildren site.server

def SetServer (node : XmlElem) (site : Site) : XmlElem :=
  match node with
  | .node nm attrs _ _ => .node nm attrs "" (SetServerChildren site)

/-! ## Site codec: GetServer (xmlfunctions.cpp lines 293–445)

`GetServer` mutates the caller's `Site` progressively and returns a
success flag; the embedding returns the (possibly partially written)
`Site` together with that flag.  It is split into the source's three
blocks: the header checks (lines 297–329), the credential block (lines
331–376) and the remaining fields (lines 378–444). -/

/-- Credential block, source lines 331–376. -/
def GetServerCredentials (node : XmlElem) (site : Site) : Site × Bool :=
  if site.credentials.logonType ≠ .anonymous then
    let user := GetTextElement node "User"
    if user = "" ∧ site.credentials.logonType ≠ .interactive ∧
        site.credentials.logonType ≠ .ask then
      (site, false)
    else
      let sp : Site × String :=
        if site.credentials.logonType = .normal ∨
            site.credentials.logonType = .account then
          match node.child "Pass" with
          | none => (site, "")
          | some passElement =>
            let encoding := GetTextAttribute passElement "encoding"
            if encoding = "base64" then
              (site, toWStringFromUtf8 (base64Decode passElement.text))
            else if encoding = "crypt" then
              let pass := toWStringFromUtf8 passElement.text
              let site := { site with credentials :=
                { site.credentials with encrypted :=
                    (publicKeyFromBase64 (passElement.attribute "pubkey")) } }
              if site.credentials.encrypted.isNone then
                (site.SetLogonType .ask, "")
              else
                (site, pass)
            else if encoding ≠ "" then
              (site.SetLogonType .ask, "")
            else
              (site, GetTextElementSelf passElement)
        else if site.credentials.logonType = .key then
          let key := GetTextElement node "Keyfile"
          ({ site with credentials :=
              { site.credentials with keyFile := key } }, "")
        else
          (site, "")
      let site := sp.1.SetUser user
      let site := { site with credentials := site.credentials.SetPass sp.2 }
      let site := { site with credentials :=
        { site.credentials with account := (GetTextElement node "Account") } }
      (site, true)
  else
    (site, true)

/-- Remaining fields, tail: bypass flag, display name and extra parameters
(source lines 433–444). -/
def GetServerRest3 (node : XmlElem) (site : Site) : Site × Bool :=
  let site := { site with server :=
    (site.server.SetBypassProxy (GetTextElementInt node "BypassProxy" 0 = 1)) }
  let site := { site with server :=
    (site.server.SetName (strTake (GetTextElement_Trimmed node "Name") 255)) }
  let site :=
    if site.server.name = "" then
      { site with server :=
        (site.server.SetName (strTake (GetTextElement_TrimmedSelf node) 255)) }
    else site
  let site := (node.children.filter (fun c => c.name = "Parameter")).foldl
    (fun s p => { s with server :=
      (s.server.SetExtraParameter (p.attribute "Name") (GetTextElementSelf p)) }) site
  (site, true)

/-- Remaining fields, second half: post-login commands (source lines
417–431), continuing with `GetServerRest3`. -/
def GetServerRest2 (node : XmlElem) (site : Site) : Site × Bool :=
  let plRes : Option Site :=
    if protocolHasPostLoginCommands site.server.protocol then
      let cmds : List String :=
        ((match node.child "PostLoginCommands" with
          | some element =>
            (element.children.filter (fun c => c.name = "Command")).map
              (fun c => toWStringFromUtf8 c.text)
          | none => []) : List String).filter (fun c => c ≠ "")
      match site.server.SetPostLoginCommands cmds with
      | none => none
      | some sv3 => some { site with server := sv3 }
    else
      some site
  match plRes with
  | none => (site, false)
  | some site => GetServerRest3 node site

/-- Remaining fields, first half: timezone, transfer mode, connection
limit and encoding (source lines 378–415), continuing with
`GetServerRest2`. -/
def GetServerRest (node : XmlElem) (site : Site) : Site × Bool :=
  match site.server.SetTimezoneOffset (GetTextElementInt node "TimezoneOffset" 0) with
  | none => (site, false)
  | some sv =>
    let site := { site with server := sv }
    let pasvMode := GetTextElement node "PasvMode"
    let site := { site with server := (site.server.SetPasvMode
      (if pasvMode = "MODE_PASSIVE" then PasvMode.passive
       else if pasvMode = "MODE_ACTIVE" then PasvMode.active
       else PasvMode.default)) }
    let site := { site with server := (site.server.MaximumMultipleConnectionsSet
      (GetTextElementInt node "MaximumMultipleConnections" 0)) }
    let encodingType := GetTextElement node "EncodingType"
    let encRes : Option Site :=
      if encodingType = "Auto" then
        some { site with server := (site.server.SetEncodingType .auto).getD site.server }
      else if encodingType = "UTF-8" then
        some { site with server := (site.server.SetEncodingType .utf8).getD site.server }
      else if encodingType = "Custom" then
        let customEncoding := GetTextElement node "CustomEncoding"
        if customEncoding = "" then none
        else
          match site.server.SetEncodingType (.custom customEncoding) with
          | none => none
          | some sv2 => some { site with server := sv2 }
      else
        some { site with server := (site.server.SetEncodingType .auto).getD site.server }
    match encRes with
    | none => (site, false)
    | some site => GetServerRest2 node site

def GetServer (node : XmlElem) (site : Site) : Site × Bool :=
  let host := GetTextElement node "Host"
  if host = "" then (site, false) else
  let port := GetTextElementInt node "Port" 0
  if port < 1 ∨ port > 65535 then (site, false) else
  match site.server.SetHost host port with
  | none => (site, false)
  | some sv =>
  let site := { site with server := sv }
  let protocol := GetTextElementInt node "Protocol" 0
  if protocol < 0 ∨ protocol > (ServerProtocolMaxValue : Int) then (site, false) else
  let site := { site with server := site.server.SetProtocol protocol.toNat }
  let stype := GetTextElementInt node "Type" 0
  if stype < 0 ∨ stype ≥ (SERVERTYPE_MAX : Int) then (site, false) else
  let site := { site with server := site.server.SetType stype.toNat }
  let logonType := GetTextElementInt node "Logontype" 0
  if logonType < 0 ∨ logonType ≥ (LogonTypeCount : Int) then (site, false) else
  let site := site.SetLogonType (LogonType.fromNat logonType.toNat)
  match GetServerCredentials node site with
  | (site, false) => (site, false)
  | (site, true) => GetServerRest node site

/-! ## Validity of a Site value

The constraints under which the spec's round-trip property is claimed,
drawn from the spec's data model (§3) and the codec's own validation:
in-range scalar fields, credential fields populated only for the logon
types that use them, and map-like containers with unique keys. -/

def validCredentials (c : Credentials) (user : String) : Prop :=
  (c.logonType = .anonymous → user = "" ∧ c.pass = "" ∧ c.account = "" ∧
    c.keyFile = "" ∧ c.encrypted = none) ∧
  ((c.logonType = .normal ∨ c.logonType = .account ∨ c.logonType = .key) →
    user ≠ "") ∧
  ((c.logonType = .interactive ∨ c.logonType = .ask ∨ c.logonType = .key) →
    c.pass = "") ∧
  (c.logonType ≠ .account → c.account = "") ∧
  (c.logonType ≠ .key → c.keyFile = "") ∧
  (match c.encrypted with
   | some k => (c.logonType = .normal ∨ c.logonType = .account) ∧
       publicKeyWellFormed k
   | none => True)

def validSite (s : Site) : Prop :=
  s.server.host ≠ "" ∧
  1 ≤ s.server.port ∧ s.server.port ≤ 65535 ∧
  s.server.protocol ≤ ServerProtocolMaxValue ∧
  s.server.serverType < SERVERTYPE_MAX ∧
  -1440 ≤ s.server.timezoneOffset ∧ s.server.timezoneOffset ≤ 1440 ∧
  (match s.server.encodingType with
   | .custom nm => nm ≠ ""
   | _ => True) ∧
  (¬protocolHasPostLoginCommands s.server.protocol →
    s.server.postLoginCommands = []) ∧
  (∀ c ∈ s.server.postLoginCommands, c ≠ "") ∧
  strTrim s.server.name = s.server.name ∧
  s.server.name.data.length ≤ 255 ∧
  (s.server.extraParameters.map Prod.fst).Nodup ∧
  validCredentials s.credentials s.server.user

instance (c : Credentials) (u : String) : Decidable (validCredentials c u) := by
  unfold validCredentials
  cases c.encrypted <;> exact inferInstance

instance (s : Site) : Decidable (validSite s) := by
  unfold validSite
  cases s.server.encodingType <;> exact inferInstance

/-! ## Lookup lemmas over the encoded node -/

theorem find?_append_of_ne (l1 l2 : List XmlElem) (n : String)
    (h : ∀ e ∈ l1, e.name ≠ n) :
    (l1 ++ l2).find? (fun c => c.name = n) = l2.find? (fun c => c.name = n) := by
  induction l1 with
  | nil => simp
  | cons a t ih =>
    rw [List.cons_append,
      List.find?_cons_of_neg _ (by simp [h a (List.mem_cons_self a t)]),
      ih (fun e he => h e (List.mem_cons_of_mem a he))]

theorem credChildren_names (u : String) (c : Credentials) :
    ∀ e ∈ SetServerCredChildren u c, e.name = "User" ∨ e.name = "Pass" ∨
      e.name = "Account" ∨ e.name = "Keyfile" := by
  intro e he
  unfold SetServerCredChildren at he
  cases henc : c.encrypted <;>
    rw [henc] at he <;>
    split_ifs at he <;>
    simp_all [textElem, XmlElem.name] <;>
    rcases he with rfl | rfl | rfl <;> simp [XmlElem.name]

theorem encChildren_names (e : EncodingType) :
    ∀ x ∈ SetServerEncodingChildren e, x.name = "EncodingType" ∨
      x.name = "CustomEncoding" := by
  intro x hx
  cases e <;> simp_all [SetServerEncodingChildren, textElem] <;>
    rcases hx with rfl | rfl <;> simp [XmlElem.name]

theorem plcChildren_names (p : Nat) (cmds : List String) :
    ∀ x ∈ SetServerPostLoginChildren p cmds, x.name = "PostLoginCommands" := by
  intro x hx
  unfold SetServerPostLoginChildren at hx
  split_ifs at hx <;> simp_all [XmlElem.name]

@[simp] theorem XmlElem.name_node (n : String) (a : List (String × String))
    (t : String) (c : List XmlElem) : (XmlElem.node n a t c).name = n := rfl

@[simp] theorem XmlElem.attrs_node (n : String) (a : List (String × String))
    (t : String) (c : List XmlElem) : (XmlElem.node n a t c).attrs = a := rfl

@[simp] theorem XmlElem.text_node (n : String) (a : List (String × String))
    (t : String) (c : List XmlElem) : (XmlElem.node n a t c).text = t := rfl

@[simp] theorem XmlElem.children_node (n : String) (a : List (String × String))
    (t : String) (c : List XmlElem) : (XmlElem.node n a t c).children = c := rfl

theorem find?_skip_head (sv : CServer) (rest : List XmlElem) (n : String)
    (h : n ≠ "Host" ∧ n ≠ "Port" ∧ n ≠ "Protocol" ∧ n ≠ "Type") :
    (SetServerHeadChildren sv ++ rest).find? (fun e => e.name = n) =
      rest.find? (fun e => e.name = n) := by
  apply find?_append_of_ne
  intro e he
  simp only [SetServerHeadChildren, textElem, List.mem_cons, List.not_mem_nil,
    or_false] at he
  rcases he with rfl | rfl | rfl | rfl <;> simp only [XmlElem.name_node] <;>
    [exact fun hh => h.1 hh.symm; exact fun hh => h.2.1 hh.symm;
     exact fun hh => h.2.2.1 hh.symm; exact fun hh => h.2.2.2 hh.symm]

theorem find?_skip_cred (u : String) (c : Credentials) (rest : List XmlElem)
    (n : String)
    (h : n ≠ "User" ∧ n ≠ "Pass" ∧ n ≠ "Account" ∧ n ≠ "Keyfile") :
    (SetServerCredChildren u c ++ rest).find? (fun e => e.name = n) =
      rest.find? (fun e => e.name = n) := by
  apply find?_append_of_ne
  intro e he
  rcases credChildren_names u c e he with h1 | h1 | h1 | h1 <;> rw [h1] <;>
    [exact fun hh => h.1 hh.symm; exact fun hh => h.2.1 hh.symm;
     exact fun hh => h.2.2.1 hh.symm; exact fun hh => h.2.2.2 hh.symm]

theorem midChildren_names (lt : LogonType) (sv : CServer) :
    ∀ e ∈ SetServerMidChildren lt sv, e.name = "Logontype" ∨
      e.name = "TimezoneOffset" ∨ e.name = "PasvMode" ∨
      e.name = "MaximumMultipleConnections" := by
  intro e he
  simp only [SetServerMidChildren, textElem, List.mem_cons, List.not_mem_nil,
    or_false] at he
  rcases he with rfl | rfl | rfl | rfl <;> simp [XmlElem.name_node]

theorem find?_skip_mid (lt : LogonType) (sv : CServer) (rest : List XmlElem)
    (n : String)
    (h : n ≠ "Logontype" ∧ n ≠ "TimezoneOffset" ∧ n ≠ "PasvMode" ∧
      n ≠ "MaximumMultipleConnections") :
    (SetServerMidChildren lt sv ++ rest).find? (fun e => e.name = n) =
      rest.find? (fun e => e.name = n) := by
  apply find?_append_of_ne
  intro e he
  rcases midChildren_names lt sv e he with h1 | h1 | h1 | h1 <;> rw [h1] <;>
    [exact fun hh => h.1 hh.symm; exact fun hh => h.2.1 hh.symm;
     exact fun hh => h.2.2.1 hh.symm; exact fun hh => h.2.2.2 hh.symm]

theorem find?_skip_enc (e : EncodingType) (rest : List XmlElem) (n : String)
    (h : n ≠ "EncodingType" ∧ n ≠ "CustomEncoding") :
    (SetServerEncodingChildren e ++ rest).find? (fun x => x.name = n) =
      rest.find? (fun x => x.name = n) := by
  apply find?_append_of_ne
  intro x hx
  rcases encChildren_names e x hx with h1 | h1 <;> rw [h1] <;>
    [exact fun hh => h.1 hh.symm; exact fun hh => h.2 hh.symm]

theorem find?_skip_plc (p : Nat) (cmds : List String) (rest : List XmlElem)
    (n : String) (h : n ≠ "PostLoginCommands") :
    (SetServerPostLoginChildren p cmds ++ rest).find? (fun x => x.name = n) =
      rest.find? (fun x => x.name = n) := by
  apply find?_append_of_ne
  intro x hx
  rw [plcChildren_names p cmds x hx]
  exact fun hh => h hh.symm

theorem tailChildren_names (sv : CServer) :
    ∀ e ∈ SetServerTailChildren sv, e.name = "BypassProxy" ∨
      e.name = "Name" ∨ e.name = "Parameter" := by
  intro e he
  unfold SetServerTailChildren at he
  simp only [List.mem_append, List.mem_cons, List.not_mem_nil, or_false,
    List.mem_map] at he
  rcases he with (rfl | he) | ⟨p, _, rfl⟩
  · simp [textElem]
  · split_ifs at he with hn
    · simp only [List.mem_singleton] at he
      subst he
      simp [textElem]
    · simp at he
  · simp

theorem SetServer_child (node : XmlElem) (s : Site) (n : String) :
    (SetServer node s).child n =
      (SetServerChildren s).find? (fun e => e.name = n) := by
  cases node; rfl

theorem SetServer_children_eq (node : XmlElem) (s : Site) :
    (SetServer node s).children = SetServerChildren s := by
  cases node; rfl

theorem SetServer_text (node : XmlElem) (s : Site) :
    (SetServer node s).text = "" := by
  cases node; rfl

theorem enc_find_Host (s : Site) :
    (SetServerChildren s).find? (fun e => e.name = "Host") =
      some (textElem "Host" s.server.host) := by
  simp [SetServerChildren, SetServerHeadChildren, textElem, List.find?]

theorem enc_find_Port (s : Site) :
    (SetServerChildren s).find? (fun e => e.name = "Port") =
      some (textElem "Port" (natToStr s.server.port)) := by
  simp [SetServerChildren, SetServerHeadChildren, textElem, List.find?]

theorem enc_find_Protocol (s : Site) :
    (SetServerChildren s).find? (fun e => e.name = "Protocol") =
      some (textElem "Protocol" (natToStr s.server.protocol)) := by
  simp [SetServerChildren, SetServerHeadChildren, textElem, List.find?]

theorem enc_find_Type (s : Site) :
    (SetServerChildren s).find? (fun e => e.name = "Type") =
      some (textElem "Type" (natToStr s.server.serverType)) := by
  simp [SetServerChildren, SetServerHeadChildren, textElem, List.find?]

theorem enc_find_Logontype (s : Site) :
    (SetServerChildren s).find? (fun e => e.name = "Logontype") =
      some (textElem "Logontype" (natToStr s.credentials.logonType.toNat)) := by
  unfold SetServerChildren
  simp only [List.append_assoc]
  rw [find?_skip_head _ _ _ (by decide), find?_skip_cred _ _ _ _ (by decide)]
  simp [SetServerMidChildren, textElem, List.find?, Credentials.Protect]

theorem enc_find_TimezoneOffset (s : Site) :
    (SetServerChildren s).find? (fun e => e.name = "TimezoneOffset") =
      some (textElem "TimezoneOffset" (intToStr s.server.timezoneOffset)) := by
  unfold SetServerChildren
  simp only [List.append_assoc]
  rw [find?_skip_head _ _ _ (by decide), find?_skip_cred _ _ _ _ (by decide)]
  simp [SetServerMidChildren, textElem, List.find?]

theorem enc_find_PasvMode (s : Site) :
    (SetServerChildren s).find? (fun e => e.name = "PasvMode") =
      some (textElem "PasvMode"
        (match s.server.pasvMode with
         | .passive => "MODE_PASSIVE"
         | .active => "MODE_ACTIVE"
         | .default => "MODE_DEFAULT")) := by
  unfold SetServerChildren
  simp only [List.append_assoc]
  rw [find?_skip_head _ _ _ (by decide), find?_skip_cred _ _ _ _ (by decide)]
  simp [SetServerMidChildren, textElem, List.find?]

theorem enc_find_MaximumMultipleConnections (s : Site) :
    (SetServerChildren s).find? (fun e => e.name = "MaximumMultipleConnections") =
      some (textElem "MaximumMultipleConnections"
        (intToStr s.server.maximumMultipleConnections)) := by
  unfold SetServerChildren
  simp only [List.append_assoc]
  rw [find?_skip_head _ _ _ (by decide), find?_skip_cred _ _ _ _ (by decide)]
  simp [SetServerMidChildren, textElem, List.find?]

theorem enc_find_EncodingType (s : Site) :
    (SetServerChildren s).find? (fun e => e.name = "EncodingType") =
      some (textElem "EncodingType"
        (match s.server.encodingType with
         | .auto => "Auto"
         | .utf8 => "UTF-8"
         | .custom _ => "Custom")) := by
  unfold SetServerChildren
  simp only [List.append_assoc]
  rw [find?_skip_head _ _ _ (by decide), find?_skip_cred _ _ _ _ (by decide),
    find?_skip_mid _ _ _ _ (by decide)]
  cases s.server.encodingType <;>
    simp [SetServerEncodingChildren, textElem, List.find?]

theorem enc_find_CustomEncoding (s : Site) (nm : String)
    (h : s.server.encodingType = .custom nm) :
    (SetServerChildren s).find? (fun e => e.name = "CustomEncoding") =
      some (textElem "CustomEncoding" nm) := by
  unfold SetServerChildren
  simp only [List.append_assoc]
  rw [find?_skip_head _ _ _ (by decide), find?_skip_cred _ _ _ _ (by decide),
    find?_skip_mid _ _ _ _ (by decide), h]
  simp [SetServerEncodingChildren, textElem, List.find?]

theorem enc_find_PostLoginCommands_pos (s : Site)
    (h : protocolHasPostLoginCommands s.server.protocol &&
      !s.server.postLoginCommands.isEmpty) :
    (SetServerChildren s).find? (fun e => e.name = "PostLoginCommands") =
      some (XmlElem.node "PostLoginCommands" [] ""
        (s.server.postLoginCommands.map (fun c => textElem "Command" c))) := by
  unfold SetServerChildren
  simp only [List.append_assoc]
  rw [find?_skip_head _ _ _ (by decide), find?_skip_cred _ _ _ _ (by decide),
    find?_skip_mid _ _ _ _ (by decide), find?_skip_enc _ _ _ (by decide)]
  simp [SetServerPostLoginChildren, h, List.find?]

theorem enc_find_PostLoginCommands_neg (s : Site)
    (h : ¬(protocolHasPostLoginCommands s.server.protocol &&
      !s.server.postLoginCommands.isEmpty)) :
    (SetServerChildren s).find? (fun e => e.name = "PostLoginCommands") =
      none := by
  unfold SetServerChildren
  simp only [List.append_assoc]
  rw [find?_skip_head _ _ _ (by decide), find?_skip_cred _ _ _ _ (by decide),
    find?_skip_mid _ _ _ _ (by decide), find?_skip_enc _ _ _ (by decide),
    show SetServerPostLoginChildren s.server.protocol
      s.server.postLoginCommands = [] by
        simp [SetServerPostLoginChildren, h],
    List.nil_append]
  apply List.find?_eq_none.mpr
  intro x hx
  rcases tailChildren_names _ x hx with h1 | h1 | h1 <;> simp [h1]

theorem enc_find_BypassProxy (s : Site) :
    (SetServerChildren s).find? (fun e => e.name = "BypassProxy") =
      some (textElem "BypassProxy" (if s.server.bypassProxy then "1" else "0")) := by
  unfold SetServerChildren
  simp only [List.append_assoc]
  rw [find?_skip_head _ _ _ (by decide), find?_skip_cred _ _ _ _ (by decide),
    find?_skip_mid _ _ _ _ (by decide), find?_skip_enc _ _ _ (by decide),
    find?_skip_plc _ _ _ _ (by decide)]
  simp [SetServerTailChildren, textElem, List.find?]

theorem enc_find_Name_pos (s : Site) (h : s.server.name ≠ "") :
    (SetServerChildren s).find? (fun e => e.name = "Name") =
      some (textElem "Name" s.server.name) := by
  unfold SetServerChildren
  simp only [List.append_assoc]
  rw [find?_skip_head _ _ _ (by decide), find?_skip_cred _ _ _ _ (by decide),
    find?_skip_mid _ _ _ _ (by decide), find?_skip_enc _ _ _ (by decide),
    find?_skip_plc _ _ _ _ (by decide)]
  simp [SetServerTailChildren, textElem, List.find?, h]

theorem enc_find_Name_neg (s : Site) (h : s.server.name = "") :
    (SetServerChildren s).find? (fun e => e.name = "Name") = none := by
  unfold SetServerChildren
  simp only [List.append_assoc]
  rw [find?_skip_head _ _ _ (by decide), find?_skip_cred _ _ _ _ (by decide),
    find?_skip_mid _ _ _ _ (by decide), find?_skip_enc _ _ _ (by decide),
    find?_skip_plc _ _ _ _ (by decide)]
  simp only [SetServerTailChildren, h, ne_eq, not_true_eq_false, if_false,
    List.cons_append, List.nil_append]
  rw [List.find?_cons_of_neg _ (by simp [textElem])]
  apply List.find?_eq_none.mpr
  intro x hx
  simp only [List.mem_map] at hx
  obtain ⟨p, _, rfl⟩ := hx
  simp

theorem headChildren_names (sv : CServer) :
    ∀ e ∈ SetServerHeadChildren sv, e.name = "Host" ∨ e.name = "Port" ∨
      e.name = "Protocol" ∨ e.name = "Type" := by
  intro e he
  simp only [SetServerHeadChildren, textElem, List.mem_cons, List.not_mem_nil,
    or_false] at he
  rcases he with rfl | rfl | rfl | rfl <;> simp

theorem filter_param_nil (l : List XmlElem)
    (h : ∀ e ∈ l, e.name ≠ "Parameter") :
    l.filter (fun e => e.name = "Parameter") = [] := by
  apply List.filter_eq_nil_iff.mpr
  intro e he
  simp [h e he]

theorem enc_filter_Parameter (s : Site) :
    (SetServerChildren s).filter (fun e => e.name = "Parameter") =
      s.server.extraParameters.map
        (fun p => XmlElem.node "Parameter" [("Name", p.1)] p.2 []) := by
  unfold SetServerChildren
  simp only [List.append_assoc, List.filter_append]
  rw [filter_param_nil _ (fun e he => by
      rcases headChildren_names _ e he with h1 | h1 | h1 | h1 <;> simp [h1]),
    filter_param_nil _ (fun e he => by
      rcases credChildren_names _ _ e he with h1 | h1 | h1 | h1 <;> simp [h1]),
    filter_param_nil _ (fun e he => by
      rcases midChildren_names _ _ e he with h1 | h1 | h1 | h1 <;> simp [h1]),
    filter_param_nil _ (fun e he => by
      rcases encChildren_names _ e he with h1 | h1 <;> simp [h1]),
    filter_param_nil _ (fun e he => by
      rw [plcChildren_names _ _ e he]; simp)]
  simp only [List.nil_append, SetServerTailChildren, List.filter_append,
    List.append_assoc]
  rw [filter_param_nil _ (fun e he => by
      simp only [List.mem_singleton] at he
      subst he; simp [textElem]),
    filter_param_nil _ (fun e he => by
      split_ifs at he with hn
      · simp only [List.mem_singleton] at he
        subst he
        simp [textElem]
      · simp at he),
    List.nil_append, List.nil_append]
  apply List.filter_eq_self.mpr
  intro x hx
  simp only [List.mem_map] at hx
  obtain ⟨p, _, rfl⟩ := hx
  simp

theorem enc_find_User (s : Site) (h : s.credentials.logonType ≠ .anonymous) :
    (SetServerChildren s).find? (fun e => e.name = "User") =
      some (textElem "User" s.server.user) := by
  unfold SetServerChildren
  simp only [List.append_assoc]
  rw [find?_skip_head _ _ _ (by decide)]
  unfold SetServerCredChildren
  simp only [Credentials.Protect, h, ne_eq, not_false_eq_true, if_true,
    List.append_assoc, List.cons_append]
  rw [List.find?_cons_of_pos _ (by simp [textElem])]

theorem enc_find_Pass_base64 (s : Site)
    (h1 : s.credentials.logonType = .normal ∨ s.credentials.logonType = .account)
    (h2 : s.credentials.encrypted = none) :
    (SetServerChildren s).find? (fun e => e.name = "Pass") =
      some (XmlElem.node "Pass" [("encoding", "base64")]
        (base64Encode (toUtf8 s.credentials.pass)) []) := by
  unfold SetServerChildren
  simp only [List.append_assoc]
  rw [find?_skip_head _ _ _ (by decide)]
  unfold SetServerCredChildren
  have hne : s.credentials.logonType ≠ .anonymous := by
    rcases h1 with h | h <;> simp [h]
  simp [Credentials.Protect, hne, h1, h2, textElem, List.find?]

theorem enc_find_Pass_crypt (s : Site) (k : String)
    (h1 : s.credentials.logonType = .normal ∨ s.credentials.logonType = .account)
    (h2 : s.credentials.encrypted = some k) :
    (SetServerChildren s).find? (fun e => e.name = "Pass") =
      some (XmlElem.node "Pass"
        [("encoding", "crypt"), ("pubkey", publicKeyToBase64 k)]
        (toUtf8 s.credentials.pass) []) := by
  unfold SetServerChildren
  simp only [List.append_assoc]
  rw [find?_skip_head _ _ _ (by decide)]
  unfold SetServerCredChildren
  have hne : s.credentials.logonType ≠ .anonymous := by
    rcases h1 with h | h <;> simp [h]
  simp [Credentials.Protect, hne, h1, h2, textElem, List.find?]

theorem enc_find_Account_pos (s : Site)
    (h : s.credentials.logonType = .account) :
    (SetServerChildren s).find? (fun e => e.name = "Account") =
      some (textElem "Account" s.credentials.account) := by
  unfold SetServerChildren
  simp only [List.append_assoc]
  rw [find?_skip_head _ _ _ (by decide)]
  unfold SetServerCredChildren
  cases hx : s.credentials.encrypted <;>
    simp [Credentials.Protect, h, hx, textElem, List.find?]

theorem credChildren_names_no_account (u : String) (c : Credentials)
    (h : c.logonType ≠ .account) :
    ∀ e ∈ SetServerCredChildren u c, e.name = "User" ∨ e.name = "Pass" ∨
      e.name = "Keyfile" := by
  intro e he
  unfold SetServerCredChildren at he
  cases henc : c.encrypted <;>
    rw [henc] at he <;>
    split_ifs at he <;>
    simp_all [textElem, XmlElem.name] <;>
    rcases he with rfl | rfl <;> simp [XmlElem.name]

theorem enc_find_Account_neg (s : Site)
    (h : s.credentials.logonType ≠ .account) :
    (SetServerChildren s).find? (fun e => e.name = "Account") = none := by
  unfold SetServerChildren
  simp only [List.append_assoc]
  rw [find?_skip_head _ _ _ (by decide)]
  rw [find?_append_of_ne _ _ _ (fun e he => by
    rcases credChildren_names_no_account _ _ h e he with h1 | h1 | h1 <;>
      simp [h1])]
  rw [find?_skip_mid _ _ _ _ (by decide), find?_skip_enc _ _ _ (by decide),
    find?_skip_plc _ _ _ _ (by decide)]
  apply List.find?_eq_none.mpr
  intro x hx
  rcases tailChildren_names _ x hx with h1 | h1 | h1 <;> simp [h1]

theorem cred_children_key (u : String) (c : Credentials)
    (h : c.logonType = .key) :
    SetServerCredChildren u c =
      [textElem "User" u] ++
        (if c.keyFile ≠ "" then [textElem "Keyfile" c.keyFile] else []) := by
  unfold SetServerCredChildren
  rw [h]
  simp

theorem enc_find_Keyfile_pos (s : Site)
    (h : s.credentials.logonType = .key)
    (hk : s.credentials.keyFile ≠ "") :
    (SetServerChildren s).find? (fun e => e.name = "Keyfile") =
      some (textElem "Keyfile" s.credentials.keyFile) := by
  unfold SetServerChildren
  simp only [List.append_assoc]
  rw [find?_skip_head _ _ _ (by decide),
    cred_children_key _ _ (by simpa [Credentials.Protect] using h)]
  simp only [Credentials.Protect, hk, if_true, List.append_assoc,
    List.cons_append, List.nil_append]
  rw [List.find?_cons_of_neg _ (by simp [textElem])]
  simp [textElem, List.find?, hk]

theorem enc_find_Keyfile_none (s : Site)
    (h : s.credentials.logonType = .key)
    (hk : s.credentials.keyFile = "") :
    (SetServerChildren s).find? (fun e => e.name = "Keyfile") = none := by
  unfold SetServerChildren
  simp only [List.append_assoc]
  rw [find?_skip_head _ _ _ (by decide),
    cred_children_key _ _ (by simpa [Credentials.Protect] using h)]
  simp only [Credentials.Protect, hk, ne_eq, not_true_eq_false, if_false,
    List.append_assoc, List.cons_append, List.append_nil, List.nil_append]
  rw [List.find?_cons_of_neg _ (by simp [textElem])]
  rw [find?_skip_mid _ _ _ _ (by decide), find?_skip_enc _ _ _ (by decide),
    find?_skip_plc _ _ _ _ (by decide)]
  apply List.find?_eq_none.mpr
  intro x hx
  rcases tailChildren_names _ x hx with h1 | h1 | h1 <;> simp [h1]

theorem strTake_of_le (s : String) (n : Nat) (h : s.data.length ≤ n) :
    strTake s n = s := by
  cases s with
  | mk data =>
    simp only [strTake]
    rw [List.take_of_length_le h]

theorem foldl_setParam_site (l : List (String × String)) (site : Site) :
    l.foldl (fun st p =>
        { st with server := (st.server.SetExtraParameter p.1 p.2) }) site =
      { site with server := { site.server with extraParameters :=
          (l.foldl (fun a p => setParamList a p.1 p.2)
            site.server.extraParameters) } } := by
  induction l generalizing site with
  | nil => simp
  | cons hd t ih =>
    simp only [List.foldl_cons]
    rw [ih]
    rfl

theorem foldl_setParamList_nodup (l acc : List (String × String))
    (hn : (l.map Prod.fst).Nodup)
    (hd : ∀ p ∈ l, ∀ q ∈ acc, q.1 ≠ p.1) :
    l.foldl (fun a p => setParamList a p.1 p.2) acc = acc ++ l := by
  induction l generalizing acc with
  | nil => simp
  | cons hd2 t ih =>
    simp only [List.foldl_cons]
    have hnotin : ¬acc.any (fun p => p.1 = hd2.1) := by
      simp only [List.any_eq_true, decide_eq_true_eq, not_exists, not_and]
      exact fun q hq => hd hd2 (List.mem_cons_self hd2 t) q hq
    rw [show setParamList acc hd2.1 hd2.2 = acc ++ [(hd2.1, hd2.2)] by
      unfold setParamList
      rw [if_neg hnotin]]
    simp only [List.map_cons, List.nodup_cons] at hn
    rw [ih _ hn.2 (fun p hp q hq => by
      rcases List.mem_append.mp hq with hq1 | hq1
      · exact hd p (List.mem_cons_of_mem _ hp) q hq1
      · simp only [List.mem_singleton] at hq1
        subst hq1
        intro hc
        exact hn.1 (by
          rw [show hd2.1 = p.1 from hc]
          exact List.mem_map_of_mem Prod.fst hp))]
    simp

theorem textElem_text (n v : String) : (textElem n v).text = v := rfl

theorem GetTextElement_SetServer (node0 : XmlElem) (s : Site) (n : String) :
    GetTextElement (SetServer node0 s) n =
      (((SetServerChildren s).find? (fun e => e.name = n)).map XmlElem.text).getD "" := by
  rw [GetTextElement, XmlElem.child, SetServer_children_eq]

theorem GetServerRest_stage1 (node0 : XmlElem) (s site1 : Site)
    (htz1 : -1440 ≤ s.server.timezoneOffset)
    (htz2 : s.server.timezoneOffset ≤ 1440)
    (hencv : match s.server.encodingType with
             | EncodingType.custom nm => nm ≠ ""
             | _ => True) :
    GetServerRest (SetServer node0 s) site1 =
      GetServerRest2 (SetServer node0 s)
        { site1 with server := { site1.server with
            timezoneOffset := s.server.timezoneOffset,
            pasvMode := s.server.pasvMode,
            maximumMultipleConnections := s.server.maximumMultipleConnections,
            encodingType := s.server.encodingType } } := by
  have htz : GetTextElementInt (SetServer node0 s) "TimezoneOffset" 0 =
      s.server.timezoneOffset := by
    rw [GetTextElementInt, GetTextElement_SetServer, enc_find_TimezoneOffset]
    simp [textElem_text, parseIntDef_intToStr]
  unfold GetServerRest
  rw [htz]
  rw [show site1.server.SetTimezoneOffset s.server.timezoneOffset =
      some { site1.server with timezoneOffset := s.server.timezoneOffset } by
    unfold CServer.SetTimezoneOffset
    rw [if_neg (by omega)]]
  simp only []
  have hpasv : GetTextElement (SetServer node0 s) "PasvMode" =
      (match s.server.pasvMode with
       | .passive => "MODE_PASSIVE"
       | .active => "MODE_ACTIVE"
       | .default => "MODE_DEFAULT") := by
    rw [GetTextElement_SetServer, enc_find_PasvMode]
    rfl
  rw [hpasv]
  rw [show (if (match s.server.pasvMode with
       | .passive => "MODE_PASSIVE"
       | .active => "MODE_ACTIVE"
       | .default => "MODE_DEFAULT") = "MODE_PASSIVE" then PasvMode.passive
      else if (match s.server.pasvMode with
       | .passive => "MODE_PASSIVE"
       | .active => "MODE_ACTIVE"
       | .default => "MODE_DEFAULT") = "MODE_ACTIVE" then PasvMode.active
      else PasvMode.default) = s.server.pasvMode by
    cases s.server.pasvMode <;> rfl]
  have hmax : GetTextElementInt (SetServer node0 s)
      "MaximumMultipleConnections" 0 =
      s.server.maximumMultipleConnections := by
    rw [GetTextElementInt, GetTextElement_SetServer,
      enc_find_MaximumMultipleConnections]
    simp [textElem_text, parseIntDef_intToStr]
  rw [hmax]
  have hencstr : GetTextElement (SetServer node0 s) "EncodingType" =
      (match s.server.encodingType with
       | .auto => "Auto"
       | .utf8 => "UTF-8"
       | .custom _ => "Custom") := by
    rw [GetTextElement_SetServer, enc_find_EncodingType]
    rfl
  rw [hencstr]
  cases hetv : s.server.encodingType with
  | auto =>
    simp only [CServer.SetPasvMode, CServer.MaximumMultipleConnectionsSet,
      CServer.SetEncodingType, Option.getD_some]
    simp
  | utf8 =>
    simp only [CServer.SetPasvMode, CServer.MaximumMultipleConnectionsSet,
      CServer.SetEncodingType, Option.getD_some]
    simp
  | custom nm =>
    rw [hetv] at hencv
    have hcust : GetTextElement (SetServer node0 s) "CustomEncoding" = nm := by
      rw [GetTextElement_SetServer, enc_find_CustomEncoding s nm hetv]
      rfl
    simp only [CServer.SetPasvMode, CServer.MaximumMultipleConnectionsSet,
      CServer.SetEncodingType, Option.getD_some, hcust]
    simp [hencv]

theorem parseIntDef_one : parseIntDef "1" 0 = 1 := by decide

theorem parseIntDef_zero : parseIntDef "0" 0 = 0 := by decide

theorem GetServerRest_stage3 (node0 : XmlElem) (s site3 : Site)
    (hep : site3.server.extraParameters = [])
    (hnametrim : strTrim s.server.name = s.server.name)
    (hnamelen : s.server.name.data.length ≤ 255)
    (hnodup : (s.server.extraParameters.map Prod.fst).Nodup) :
    GetServerRest3 (SetServer node0 s) site3 =
      ({ site3 with server := { site3.server with
          bypassProxy := s.server.bypassProxy,
          name := s.server.name,
          extraParameters := s.server.extraParameters } }, true) := by
  have hbp : GetTextElementInt (SetServer node0 s) "BypassProxy" 0 =
      (if s.server.bypassProxy then 1 else 0) := by
    rw [GetTextElementInt, GetTextElement_SetServer, enc_find_BypassProxy]
    cases s.server.bypassProxy <;>
      simp [textElem_text, parseIntDef_one, parseIntDef_zero]
  unfold GetServerRest3
  rw [hbp]
  rw [show (decide ((if s.server.bypassProxy = true then (1 : Int) else 0) = 1)) =
      s.server.bypassProxy by cases s.server.bypassProxy <;> simp]
  have hname : strTake (GetTextElement_Trimmed (SetServer node0 s) "Name") 255 =
      s.server.name := by
    rw [GetTextElement_Trimmed]
    by_cases hn : s.server.name = ""
    · rw [GetTextElement_SetServer, enc_find_Name_neg s hn, hn]
      rfl
    · rw [GetTextElement_SetServer, enc_find_Name_pos s hn]
      simp only [Option.map_some', Option.getD_some, textElem_text]
      rw [hnametrim]
      exact strTake_of_le _ _ hnamelen
  rw [hname]
  have hself : GetTextElement_TrimmedSelf (SetServer node0 s) = "" := by
    rw [GetTextElement_TrimmedSelf, GetTextElementSelf, SetServer_text]
    rfl
  have hbody : (fun (st : Site) (p : String × String) =>
      { st with server :=
        (st.server.SetExtraParameter
          ((XmlElem.node "Parameter" [("Name", p.1)] p.2 []).attribute "Name")
          (GetTextElementSelf (XmlElem.node "Parameter" [("Name", p.1)] p.2 []))) }) =
      (fun (st : Site) (p : String × String) =>
        { st with server := (st.server.SetExtraParameter p.1 p.2) }) := by
    funext st p
    simp [XmlElem.attribute, GetTextElementSelf]
  simp only [CServer.SetBypassProxy, CServer.SetName]
  rw [SetServer_children_eq, enc_filter_Parameter]
  by_cases hn : s.server.name = ""
  · rw [if_pos (by simpa using hn), hself,
      show strTake "" 255 = "" from rfl,
      show ("" : String) = s.server.name from hn.symm]
    rw [List.foldl_map, hbody, foldl_setParam_site]
    rw [show ({ site3.server with
        bypassProxy := s.server.bypassProxy,
        name := s.server.name } : CServer).extraParameters =
      site3.server.extraParameters from rfl, hep]
    rw [foldl_setParamList_nodup _ _ hnodup
      (fun p hp q hq => absurd hq (List.not_mem_nil q)), List.nil_append]
  · rw [if_neg (by simpa using hn)]
    rw [List.foldl_map, hbody, foldl_setParam_site]
    rw [show ({ site3.server with
        bypassProxy := s.server.bypassProxy,
        name := s.server.name } : CServer).extraParameters =
      site3.server.extraParameters from rfl, hep]
    rw [foldl_setParamList_nodup _ _ hnodup
      (fun p hp q hq => absurd hq (List.not_mem_nil q)), List.nil_append]

theorem GetServerRest_stage2 (node0 : XmlElem) (s site2 : Site)
    (hp : site2.server.protocol = s.server.protocol)
    (hpl : site2.server.postLoginCommands = [])
    (hplcv : ¬protocolHasPostLoginCommands s.server.protocol →
      s.server.postLoginCommands = [])
    (hplcne : ∀ c ∈ s.server.postLoginCommands, c ≠ "") :
    GetServerRest2 (SetServer node0 s) site2 =
      GetServerRest3 (SetServer node0 s)
        { site2 with server := { site2.server with
            postLoginCommands := s.server.postLoginCommands } } := by
  unfold GetServerRest2
  rw [hp]
  by_cases hfeat : protocolHasPostLoginCommands s.server.protocol
  · simp only [hfeat, if_true]
    by_cases hcm : s.server.postLoginCommands = []
    · rw [SetServer_child, enc_find_PostLoginCommands_neg s (by simp [hcm])]
      simp only [List.filter_nil]
      rw [show site2.server.SetPostLoginCommands [] =
          some { site2.server with postLoginCommands := [] } by
        unfold CServer.SetPostLoginCommands
        simp]
      rw [hcm]
    · rw [SetServer_child, enc_find_PostLoginCommands_pos s (by
        simp only [Bool.and_eq_true, hfeat, true_and]
        simpa [List.isEmpty_iff] using hcm)]
      simp only [XmlElem.children_node]
      rw [show List.filter (fun c => decide (c.name = "Command"))
          (List.map (fun c => textElem "Command" c)
            s.server.postLoginCommands) =
          List.map (fun c => textElem "Command" c)
            s.server.postLoginCommands from
        List.filter_eq_self.mpr (fun e he => by
          simp only [List.mem_map] at he
          obtain ⟨c, _, rfl⟩ := he
          simp [textElem])]
      rw [List.map_map]
      rw [show ((fun c => toWStringFromUtf8 c.text) ∘
          (fun c => textElem "Command" c)) = (fun c : String => c) by
        funext c
        simp [textElem, toWStringFromUtf8]]
      rw [show List.map (fun c : String => c) s.server.postLoginCommands =
          s.server.postLoginCommands by simp]
      rw [List.filter_eq_self.mpr (fun c hc => by
        simpa using hplcne c hc)]
      rw [show site2.server.SetPostLoginCommands s.server.postLoginCommands =
          some { site2.server with
            postLoginCommands := s.server.postLoginCommands } by
        unfold CServer.SetPostLoginCommands
        rw [if_pos (by simp [hp, hfeat])]]
  · simp only [hfeat, if_false, Bool.false_eq_true]
    rw [hplcv hfeat]
    congr 1
    cases site2 with
    | mk sv2 cr2 =>
      cases sv2
      simp only [Site.mk.injEq, CServer.mk.injEq, and_true, true_and]
      simp at hpl
      simp [hpl]

theorem GetServerRest_encoded (node0 : XmlElem) (s site1 : Site)
    (hv : validSite s)
    (hp : site1.server.protocol = s.server.protocol)
    (hep : site1.server.extraParameters = [])
    (hpl : site1.server.postLoginCommands = []) :
    GetServerRest (SetServer node0 s) site1 =
      ({ site1 with server := { site1.server with
          timezoneOffset := s.server.timezoneOffset,
          pasvMode := s.server.pasvMode,
          maximumMultipleConnections := s.server.maximumMultipleConnections,
          encodingType := s.server.encodingType,
          postLoginCommands := s.server.postLoginCommands,
          bypassProxy := s.server.bypassProxy,
          name := s.server.name,
          extraParameters := s.server.extraParameters } }, true) := by
  obtain ⟨hhost, hport1, hport2, hproto, htype, htz1, htz2, hencv, hplcv,
    hplcne, hnametrim, hnamelen, hnodup, hcred⟩ := hv
  rw [GetServerRest_stage1 node0 s site1 htz1 htz2 hencv,
    GetServerRest_stage2 node0 s _ (by exact hp) (by exact hpl) hplcv hplcne,
    GetServerRest_stage3 node0 s _ (by exact hep) hnametrim hnamelen hnodup]

theorem GetServerCredentials_encoded (node0 : XmlElem) (s site4 : Site)
    (hv : validSite s)
    (hlt : site4.credentials.logonType = s.credentials.logonType)
    (hu : site4.server.user = "")
    (hpw : site4.credentials.pass = "")
    (hac : site4.credentials.account = "")
    (hkf : site4.credentials.keyFile = "")
    (hen : site4.credentials.encrypted = none) :
    GetServerCredentials (SetServer node0 s) site4 =
      ({ site4 with
          server := { site4.server with user := s.server.user },
          credentials := { site4.credentials with
            pass := s.credentials.pass,
            account := s.credentials.account,
            keyFile := s.credentials.keyFile,
            encrypted := s.credentials.encrypted } }, true) := by
  obtain ⟨hhost, hport1, hport2, hproto, htype, htz1, htz2, hencv, hplcv,
    hplcne, hnametrim, hnamelen, hnodup, hcred⟩ := hv
  obtain ⟨hanon, huserv, hpassv, hacctv, hkeyv, hencrv⟩ := hcred
  unfold GetServerCredentials
  rw [hlt]
  cases hl : s.credentials.logonType with
  | anonymous =>
    obtain ⟨ha1, ha2, ha3, ha4, ha5⟩ := hanon hl
    rw [if_neg (by simp)]
    obtain ⟨⟨sh, sp, spr, sst, su, stz, spm, smc, set2, splc, sbp, snm, sxp⟩,
      ⟨clt, cps, cac, ckf, cen⟩⟩ := site4
    simp only [Site.mk.injEq, CServer.mk.injEq, Credentials.mk.injEq] at *
    simp_all
  | interactive =>
    rw [if_pos (by simp)]
    have hU : GetTextElement (SetServer node0 s) "User" = s.server.user := by
      rw [GetTextElement_SetServer, enc_find_User s (by rw [hl]; simp)]
      rfl
    rw [hU]
    rw [if_neg (by simp)]
    have hAcc : GetTextElement (SetServer node0 s) "Account" = "" := by
      rw [GetTextElement_SetServer, enc_find_Account_neg s (by rw [hl]; simp)]
      rfl
    simp only [hAcc]
    have hence : s.credentials.encrypted = none := by
      cases hce : s.credentials.encrypted with
      | none => rfl
      | some k =>
        rw [hce] at hencrv
        rcases hencrv with ⟨h1 | h1, _⟩ <;> rw [hl] at h1 <;> simp at h1
    rw [hacctv (by rw [hl]; simp), hkeyv (by rw [hl]; simp),
      hpassv (by rw [hl]; simp), hence] at *
    simp only [show (LogonType.interactive = LogonType.normal ∨
        LogonType.interactive = LogonType.account) = False by simp,
      show (LogonType.interactive = LogonType.key) = False by simp, if_false]
    unfold Site.SetUser Credentials.SetPass
    obtain ⟨⟨sh, sp2, spr, sst, su, stz, spm, smc, set2, splc, sbp, snm, sxp⟩,
      ⟨clt, cps, cac, ckf, cen⟩⟩ := site4
    simp_all
  | ask =>
    rw [if_pos (by simp)]
    have hU : GetTextElement (SetServer node0 s) "User" = s.server.user := by
      rw [GetTextElement_SetServer, enc_find_User s (by rw [hl]; simp)]
      rfl
    rw [hU]
    rw [if_neg (by simp)]
    have hAcc : GetTextElement (SetServer node0 s) "Account" = "" := by
      rw [GetTextElement_SetServer, enc_find_Account_neg s (by rw [hl]; simp)]
      rfl
    simp only [hAcc]
    have hence : s.credentials.encrypted = none := by
      cases hce : s.credentials.encrypted with
      | none => rfl
      | some k =>
        rw [hce] at hencrv
        rcases hencrv with ⟨h1 | h1, _⟩ <;> rw [hl] at h1 <;> simp at h1
    rw [hacctv (by rw [hl]; simp), hkeyv (by rw [hl]; simp),
      hpassv (by rw [hl]; simp), hence] at *
    simp only [show (LogonType.ask = LogonType.normal ∨
        LogonType.ask = LogonType.account) = False by simp,
      show (LogonType.ask = LogonType.key) = False by simp, if_false]
    unfold Site.SetUser Credentials.SetPass
    obtain ⟨⟨sh, sp2, spr, sst, su, stz, spm, smc, set2, splc, sbp, snm, sxp⟩,
      ⟨clt, cps, cac, ckf, cen⟩⟩ := site4
    simp_all
  | key =>
    rw [if_pos (by simp)]
    have hU : GetTextElement (SetServer node0 s) "User" = s.server.user := by
      rw [GetTextElement_SetServer, enc_find_User s (by rw [hl]; simp)]
      rfl
    rw [hU]
    rw [if_neg (fun hc => huserv (by rw [hl]; simp) hc.1)]
    have hAcc : GetTextElement (SetServer node0 s) "Account" = "" := by
      rw [GetTextElement_SetServer, enc_find_Account_neg s (by rw [hl]; simp)]
      rfl
    simp only [hAcc]
    have hence : s.credentials.encrypted = none := by
      cases hce : s.credentials.encrypted with
      | none => rfl
      | some k =>
        rw [hce] at hencrv
        rcases hencrv with ⟨h1 | h1, _⟩ <;> rw [hl] at h1 <;> simp at h1
    have hKf : GetTextElement (SetServer node0 s) "Keyfile" =
        s.credentials.keyFile := by
      by_cases hkf2 : s.credentials.keyFile = ""
      · rw [GetTextElement_SetServer, enc_find_Keyfile_none s hl hkf2, hkf2]
        rfl
      · rw [GetTextElement_SetServer, enc_find_Keyfile_pos s hl hkf2]
        rfl
    rw [hKf]
    rw [hacctv (by rw [hl]; simp), hpassv (by rw [hl]; simp), hence] at *
    simp only [show (LogonType.key = LogonType.normal ∨
        LogonType.key = LogonType.account) = False by simp,
      show (LogonType.key = LogonType.key) = True by simp, if_false, if_true]
    unfold Site.SetUser Credentials.SetPass
    obtain ⟨⟨sh, sp2, spr, sst, su, stz, spm, smc, set2, splc, sbp, snm, sxp⟩,
      ⟨clt, cps, cac, ckf, cen⟩⟩ := site4
    simp_all
  | normal =>
    rw [if_pos (by simp)]
    have hU : GetTextElement (SetServer node0 s) "User" = s.server.user := by
      rw [GetTextElement_SetServer, enc_find_User s (by rw [hl]; simp)]
      rfl
    rw [hU]
    rw [if_neg (fun hc => huserv (by rw [hl]; simp) hc.1)]
    have hAcc : GetTextElement (SetServer node0 s) "Account" = "" := by
      rw [GetTextElement_SetServer, enc_find_Account_neg s (by rw [hl]; simp)]
      rfl
    simp only [hAcc]
    simp only [true_or, or_true, if_true]
    cases hec : s.credentials.encrypted with
    | none =>
      rw [SetServer_child, enc_find_Pass_base64 s (Or.inl hl) hec]
      simp only [GetTextAttribute, XmlElem.attribute, XmlElem.attrs_node,
        List.find?, XmlElem.text_node]
      rw [hacctv (by rw [hl]; simp), hkeyv (by rw [hl]; simp)] at *
      unfold Site.SetUser Credentials.SetPass
      obtain ⟨⟨sh, sp2, spr, sst, su, stz, spm, smc, set2, splc, sbp, snm, sxp⟩,
        ⟨clt, cps, cac, ckf, cen⟩⟩ := site4
      simp_all [toUtf8, toWStringFromUtf8, base64Decode_base64Encode]
    | some k =>
      rw [SetServer_child, enc_find_Pass_crypt s k (Or.inl hl) hec]
      rw [hec] at hencrv
      obtain ⟨_, hwf⟩ := hencrv
      simp only [GetTextAttribute, XmlElem.attribute, XmlElem.attrs_node,
        List.find?, XmlElem.text_node]
      rw [hacctv (by rw [hl]; simp), hkeyv (by rw [hl]; simp)] at *
      unfold Site.SetUser Credentials.SetPass
      obtain ⟨⟨sh, sp2, spr, sst, su, stz, spm, smc, set2, splc, sbp, snm, sxp⟩,
        ⟨clt, cps, cac, ckf, cen⟩⟩ := site4
      simp_all [toUtf8, toWStringFromUtf8, publicKeyFromBase64,
        publicKeyToBase64, hwf]
  | account =>
    rw [if_pos (by simp)]
    have hU : GetTextElement (SetServer node0 s) "User" = s.server.user := by
      rw [GetTextElement_SetServer, enc_find_User s (by rw [hl]; simp)]
      rfl
    rw [hU]
    rw [if_neg (fun hc => huserv (by rw [hl]; simp) hc.1)]
    have hAcc : GetTextElement (SetServer node0 s) "Account" =
        s.credentials.account := by
      rw [GetTextElement_SetServer, enc_find_Account_pos s hl]
      rfl
    simp only [hAcc]
    simp only [true_or, or_true, if_true]
    cases hec : s.credentials.encrypted with
    | none =>
      rw [SetServer_child, enc_find_Pass_base64 s (Or.inr hl) hec]
      simp only [GetTextAttribute, XmlElem.attribute, XmlElem.attrs_node,
        List.find?, XmlElem.text_node]
      rw [hkeyv (by rw [hl]; simp)] at *
      unfold Site.SetUser Credentials.SetPass
      obtain ⟨⟨sh, sp2, spr, sst, su, stz, spm, smc, set2, splc, sbp, snm, sxp⟩,
        ⟨clt, cps, cac, ckf, cen⟩⟩ := site4
      simp_all [toUtf8, toWStringFromUtf8, base64Decode_base64Encode]
    | some k =>
      rw [SetServer_child, enc_find_Pass_crypt s k (Or.inr hl) hec]
      rw [hec] at hencrv
      obtain ⟨_, hwf⟩ := hencrv
      simp only [GetTextAttribute, XmlElem.attribute, XmlElem.attrs_node,
        List.find?, XmlElem.text_node]
      rw [hkeyv (by rw [hl]; simp)] at *
      unfold Site.SetUser Credentials.SetPass
      obtain ⟨⟨sh, sp2, spr, sst, su, stz, spm, smc, set2, splc, sbp, snm, sxp⟩,
        ⟨clt, cps, cac, ckf, cen⟩⟩ := site4
      simp_all [toUtf8, toWStringFromUtf8, publicKeyFromBase64,
        publicKeyToBase64, hwf]

theorem GetServer_SetServer (node0 : XmlElem) (s : Site) (hv : validSite s) :
    GetServer (SetServer node0 s) defaultSite = (s, true) := by
  obtain ⟨hhost, hport1, hport2, hproto, htype, htz1, htz2, hencv, hplcv,
    hplcne, hnametrim, hnamelen, hnodup, hcred⟩ := hv
  have hv2 : validSite s := ⟨hhost, hport1, hport2, hproto, htype, htz1, htz2,
    hencv, hplcv, hplcne, hnametrim, hnamelen, hnodup, hcred⟩
  have hH : GetTextElement (SetServer node0 s) "Host" = s.server.host := by
    rw [GetTextElement_SetServer, enc_find_Host]
    rfl
  have hP : GetTextElementInt (SetServer node0 s) "Port" 0 =
      (s.server.port : Int) := by
    rw [GetTextElementInt, GetTextElement_SetServer, enc_find_Port]
    simp [textElem_text, parseIntDef_natToStr]
  have hPr : GetTextElementInt (SetServer node0 s) "Protocol" 0 =
      (s.server.protocol : Int) := by
    rw [GetTextElementInt, GetTextElement_SetServer, enc_find_Protocol]
    simp [textElem_text, parseIntDef_natToStr]
  have hTy : GetTextElementInt (SetServer node0 s) "Type" 0 =
      (s.server.serverType : Int) := by
    rw [GetTextElementInt, GetTextElement_SetServer, enc_find_Type]
    simp [textElem_text, parseIntDef_natToStr]
  have hLt : GetTextElementInt (SetServer node0 s) "Logontype" 0 =
      (s.credentials.logonType.toNat : Int) := by
    rw [GetTextElementInt, GetTextElement_SetServer, enc_find_Logontype]
    simp [textElem_text, parseIntDef_natToStr]
  have h25 : s.server.protocol ≤ 25 := hproto
  have h9 : s.server.serverType < 9 := htype
  have hlt6 : s.credentials.logonType.toNat < 6 := by
    cases s.credentials.logonType <;> decide
  unfold GetServer
  rw [hH, if_neg hhost, hP,
    if_neg (by
      rw [show ((65535 : Int) = (65535 : Nat)) from rfl]
      omega)]
  rw [show defaultSite.server.SetHost s.server.host (s.server.port : Int) =
      some { defaultSite.server with host := s.server.host, port := s.server.port } by
    unfold CServer.SetHost
    rw [if_neg hhost, if_neg (by omega)]
    simp]
  simp only []
  rw [hPr,
    if_neg (by
      rw [show ((ServerProtocolMaxValue : Nat) : Int) = 25 from rfl]
      omega)]
  rw [hTy,
    if_neg (by
      rw [show ((SERVERTYPE_MAX : Nat) : Int) = 9 from rfl]
      omega)]
  rw [hLt,
    if_neg (by
      rw [show ((LogonTypeCount : Nat) : Int) = 6 from rfl]
      omega)]
  rw [show (LogonType.fromNat ((s.credentials.logonType.toNat : Int)).toNat) =
      s.credentials.logonType by
    rw [show ((s.credentials.logonType.toNat : Int)).toNat =
      s.credentials.logonType.toNat from rfl, LogonType.fromNat_toNat]]
  simp only [CServer.SetProtocol, CServer.SetType, Site.SetLogonType]
  have hc := GetServerCredentials_encoded node0 s
      ({ server := { defaultSite.server with
                       host := s.server.host,
                       port := s.server.port,
                       protocol := ((s.server.protocol : Int)).toNat,
                       serverType := ((s.server.serverType : Int)).toNat },
         credentials := { defaultSite.credentials with
                            logonType := s.credentials.logonType } })
      hv2 rfl rfl rfl rfl rfl rfl
  rw [hc]
  simp only []
  refine Eq.trans (GetServerRest_encoded node0 s _ hv2 rfl rfl rfl) ?_
  obtain ⟨⟨sh, sp2, spr, sst, su, stz, spm, smc, set2, splc, sbp, snm, sxp⟩,
    ⟨clt, cps, cac, ckf, cen⟩⟩ := s
  simp

/-! ## Filesystem model

The persistence engine's collaborators (libfilezilla local_filesys,
wxCopyFile/wxRenameFile, the pugi file parser) are not part of the
excerpt; they are modelled from the spec.  A file's bytes are abstracted
by what the parser makes of them: zero-length, malformed (with the
parser's description and byte offset), or a well-formed sequence of
top-level elements.  `fsCopy` models `wxCopyFile` as duplicating the
whole entry — content and modification time — and succeeding whenever
used by the code under scrutiny (both call sites copy a file that was
just observed to exist); `fsRename` models `wxRenameFile` likewise. -/

inductive FileData where
  | empty
  | malformed (desc : String) (offset : Nat)
  | wellFormed (roots : List XmlElem)

structure FsEntry where
  data : FileData
  mtime : Nat

def Fs : Type := String → Option FsEntry

/-- Modelled from the spec: `fz::local_filesys::get_size(p) <= 0` — the
file is missing or zero-length. -/
def fsSizeLeZero (fs : Fs) (p : String) : Bool :=
  match fs p with
  | none => true
  | some e =>
    match e.data with
    | .empty => true
    | _ => false

/-- Modelled from the spec: `fz::local_filesys::get_modification_time`,
`none` standing for the empty `fz::datetime`. -/
def fsMTime (fs : Fs) (p : String) : Option Nat :=
  (fs p).map FsEntry.mtime

def fsCopy (fs : Fs) (src dst : String) : Fs :=
  fun p => if p = dst then fs src else fs p

def fsRemove (fs : Fs) (p : String) : Fs :=
  fun q => if q = p then none else fs q

def fsRename (fs : Fs) (src dst : String) : Fs :=
  fun q => if q = dst then fs src else if q = src then none else fs q

def fsWrite (fs : Fs) (p : String) (e : FsEntry) : Fs :=
  fun q => if q = p then some e else fs q

/-! ## CXmlFile state

`m_element` is modelled as the index of the distinguished root element
inside `m_document`; the pugi null node handle is `none`.  `m_document`
is `none` when the document was reset (`Close`).  Following the source's
default parse flags, loading never materializes the XML declaration, so
`XmlDoc.hasDecl` is true only for documents built by `CreateEmpty`. -/

structure XmlDoc where
  hasDecl : Bool
  roots : List XmlElem

structure CXmlFile where
  m_fileName : String
  m_rootName : String
  m_document : Option XmlDoc
  m_element : Option Nat
  m_error : String
  m_modificationTime : Option Nat

/-- The constructor `CXmlFile::CXmlFile(fileName, root)`: a non-empty
`root` overrides the default root name "FileZilla3" (the default is the
class member initializer, modelled from the spec). -/
def CXmlFile.make (fileName : String) (root : String) : CXmlFile :=
  { m_fileName := fileName,
    m_rootName := if root = "" then "FileZilla3" else root,
    m_document := none, m_element := none, m_error := "",
    m_modificationTime := none }

def CXmlFile.GetElement (st : CXmlFile) : Option XmlElem :=
  match st.m_document, st.m_element with
  | some d, some i => d.roots.get? i
  | _, _ => none

def CXmlFile.Close (st : CXmlFile) : CXmlFile :=
  { st with m_element := none, m_document := none }

def CXmlFile.CreateEmpty (st : CXmlFile) : CXmlFile :=
  let st := st.Close
  { st with
    m_document := some ⟨true, [XmlElem.node st.m_rootName [] "" []]⟩,
    m_element := some 0 }

/-- Modelled from the spec: the parse-failure message
`"%s at offset %d."`. -/
def parseErrString (desc : String) (offset : Nat) : String :=
  desc ++ " at offset " ++ natToStr offset ++ "."

def unknownRootError : String :=
  "Unknown root element, the file does not appear to be generated by FileZilla."

/-- `CXmlFile::GetXmlFile` (source lines 172–199). -/
def CXmlFile.GetXmlFile (st : CXmlFile) (fs : Fs) (file : String) :
    CXmlFile × Bool :=
  let st := st.Close
  if fsSizeLeZero fs file then (st, false)
  else
    match fs file with
    | none => (st, false)
    | some e =>
      match e.data with
      | .empty => (st, false)
      | .malformed desc offset =>
        ({ st with m_error := st.m_error ++ parseErrString desc offset }, false)
      | .wellFormed roots =>
        match roots.findIdx? (fun r => r.name = st.m_rootName) with
        | some i =>
          ({ st with
              m_document := some ⟨false, roots⟩,
              m_element := some i }, true)
        | none =>
          if roots.isEmpty then
            ({ st with
                m_document := some ⟨false, [XmlElem.node st.m_rootName [] "" []]⟩,
                m_element := some 0 }, true)
          else
            ({ st.Close with m_error := unknownRootError }, false)

/-- Modelled from the spec: the load-failure message built at source lines
39–45. -/
def loadErrString (fileName innerError : String) : String :=
  "The file '" ++ fileName ++ "' could not be loaded." ++ "\n" ++
    (if innerError = "" then
      "Make sure the file can be accessed and is a well-formed XML document."
    else innerError)

/-- `CXmlFile::Load` (source lines 28–96).  `GetRedirectedName` is
modelled as the identity (no symlink in the filesystem model); the
backup-restore copy is modelled as succeeding (see `fsCopy`). -/
def CXmlFile.Load (st : CXmlFile) (fs : Fs) (overwriteInvalid : Bool) :
    Fs × CXmlFile × Option XmlElem :=
  let st := st.Close
  let st := { st with m_error := "" }
  if st.m_fileName = "" then (fs, st, st.GetElement)
  else
    let redirectedName := st.m_fileName
    let r1 := st.GetXmlFile fs redirectedName
    if r1.2 then
      (fs, { r1.1 with m_modificationTime := fsMTime fs redirectedName },
        r1.1.GetElement)
    else
      let err := loadErrString st.m_fileName r1.1.m_error
      let r2 := r1.1.GetXmlFile fs (redirectedName ++ "~")
      if ¬r2.2 then
        let createEmpty := overwriteInvalid ||
          (fsSizeLeZero fs redirectedName &&
            fsSizeLeZero fs (redirectedName ++ "~"))
        if createEmpty then
          let st3 := ({ r2.1 with m_error := "" }).CreateEmpty
          (fs, { st3 with m_modificationTime := fsMTime fs redirectedName },
            st3.GetElement)
        else
          (fs, { r2.1 with m_error := err, m_modificationTime := none },
            r2.1.GetElement)
      else
        let fs1 := fsCopy fs (redirectedName ++ "~") redirectedName
        let fs2 := fsRemove fs1 (redirectedName ++ "~")
        let st3 := { r2.1 with m_error := "" }
        (fs2, { st3 with m_modificationTime := fsMTime fs2 redirectedName },
          st3.GetElement)

/-- `CXmlFile::Modified` (source lines 98–110). -/
def CXmlFile.Modified (st : CXmlFile) (fs : Fs) : Bool :=
  if st.m_fileName = "" then false
  else
    match st.m_modificationTime with
    | none => true
    | some t =>
      match fsMTime fs st.m_fileName with
      | some t2 => !(t2 == t)
      | none => true

/-- Modelled from the spec: `CBuildInfo::GetVersion` (buildinfo is not in
the excerpt). -/
def buildVersion : String := "3.60.1"

/-- Modelled from the spec: the build platform attribute on a non-Windows,
non-Mac build. -/
def buildPlatform : String := "*nix"

/-- `CXmlFile::UpdateMetadata` (source lines 118–135): version/platform
attributes are written only when the root element's name is the literal
"FileZilla3". -/
def CXmlFile.UpdateMetadata (st : CXmlFile) : CXmlFile :=
  match st.m_document, st.m_element with
  | some d, some i =>
    match d.roots.get? i with
    | some e =>
      if e.name ≠ "FileZilla3" then st
      else
        let e1 := (e.setAttr "version" buildVersion).setAttr "platform"
          buildPlatform
        { st with m_document := some ⟨d.hasDecl, d.roots.set i e1⟩ }
    | none => st
  | _, _ => st

def docFileData (d : Option XmlDoc) : FileData :=
  match d with
  | some doc => .wellFormed doc.roots
  | none => .wellFormed []

/-- `CXmlFile::SaveXmlFile` (source lines 217–291).  The flushing writer's
outcome (open failure, short write or fsync failure) is injected via
`writeOk`; on failure `partialData` is whatever truncated content the
failed writer left at the target (`none` when the open itself failed and
no file was created).  Both backup copy and rollback rename are modelled
as succeeding; the Windows-only hidden-attribute clearing is not
modelled. -/
def CXmlFile.SaveXmlFile (st : CXmlFile) (fs : Fs) (t : Nat)
    (writeOk : Bool) (partialData : Option FsEntry) : Fs × CXmlFile × Bool :=
  let redirectedName := st.m_fileName
  let fileExists := (fs redirectedName).isSome
  let fs1 := if fileExists then
    fsCopy fs redirectedName (redirectedName ++ "~") else fs
  if writeOk then
    let fs2 := fsWrite fs1 redirectedName ⟨docFileData st.m_document, t⟩
    let fs3 := if fileExists then fsRemove fs2 (redirectedName ++ "~") else fs2
    (fs3, st, true)
  else
    let fs2 := match partialData with
      | some e => fsWrite fs1 redirectedName e
      | none => fs1
    let fs3 := fsRemove fs2 redirectedName
    let fs4 := if fileExists then
      fsRename fs3 (redirectedName ++ "~") redirectedName else fs3
    (fs4, { st with m_error := "Failed to write xml file" }, false)

/-- `CXmlFile::Save` (source lines 137–156); the `printError` message box
has no effect on the model state. -/
def CXmlFile.Save (st : CXmlFile) (fs : Fs) (t : Nat) (printError : Bool)
    (writeOk : Bool) (partialData : Option FsEntry) : Fs × CXmlFile × Bool :=
  let st := { st with m_error := "" }
  if st.m_fileName = "" then (fs, st, false)
  else if st.m_document.isNone then (fs, st, false)
  else
    let st := st.UpdateMetadata
    let r := st.SaveXmlFile fs t writeOk partialData
    let st2 := { r.2.1 with m_modificationTime := fsMTime r.1 st.m_fileName }
    (r.1, st2, r.2.2)

/-- `CXmlFile::ParseData` (source lines 590–599).  The raw buffer is
abstracted by its parse outcome; a failed parse leaves no tree. -/
def CXmlFile.ParseData (st : CXmlFile) (data : FileData) : CXmlFile × Bool :=
  let st := st.Close
  let roots := match data with
    | .wellFormed r => r
    | _ => []
  let st := { st with m_document := some ⟨false, roots⟩ }
  match roots.findIdx? (fun r => r.name = st.m_rootName) with
  | some i => ({ st with m_element := some i }, true)
  | none => (st.Close, false)

/-! ## Raw-data serialization (xml_memory_writer, source lines 549–588)

`pugi::xml_document::save` emits the document as a sequence of write
calls; the serializer below (modelled from the spec — pugi is a
primitive) produces that chunk sequence.  The memory writer is the exact
embedding of `xml_memory_writer`: a chunk is copied only when it fits
entirely in the remaining space, the cursor advances only on copy, and
the `written` counter always advances. -/

def chunkOfString (s : String) : List Nat := s.data.map Char.toNat

mutual
def serializeElemChunks : XmlElem → List (List Nat)
  | .node n attrs t children =>
    [chunkOfString ("<" ++ n)] ++
    attrs.map (fun a => chunkOfString (" " ++ a.1 ++ "=" ++ a.2)) ++
    [chunkOfString ">"] ++
    (if t = "" then [] else [chunkOfString t]) ++
    serializeElemsChunks children ++
    [chunkOfString ("</" ++ n ++ ">")]

def serializeElemsChunks : List XmlElem → List (List Nat)
  | [] => []
  | e :: rest => serializeElemChunks e ++ serializeElemsChunks rest
end

def serializeDocChunks (d : XmlDoc) : List (List Nat) :=
  [chunkOfString "<?xml version=1.0 encoding=UTF-8?>"] ++
    serializeElemsChunks d.roots

/-- One `memcpy` of the writer at cursor `pos`. -/
def writeMem (m : Nat → Nat) (pos : Nat) (data : List Nat) : Nat → Nat :=
  fun i => if pos ≤ i ∧ i < pos + data.length then data.getD (i - pos) 0 else m i

/-- The buffered branch of `xml_memory_writer::write`, folded over the
chunk sequence: the final memory and the cursor (= bytes copied). -/
def runWriter : List (List Nat) → (Nat → Nat) → Nat → Nat → ((Nat → Nat) × Nat)
  | [], m, pos, _ => (m, pos)
  | c :: cs, m, pos, size =>
    if pos + c.length ≤ size then
      runWriter cs (writeMem m pos c) (pos + c.length) size
    else
      runWriter cs m pos size

/-- `CXmlFile::GetRawDataLength` (source lines 568–577): a writer with a
null buffer only accumulates `written`. -/
def CXmlFile.GetRawDataLength (st : CXmlFile) : Nat :=
  match st.m_document with
  | none => 0
  | some d => (serializeDocChunks d).foldl (fun a c => a + c.length) 0

/-- `CXmlFile::GetRawDataHere` (source lines 579–588): memset the buffer
to zero, then run the writer.  The memory is a total function so that
"never writes past `size`" is expressible; the second component is the
number of bytes actually copied. -/
def CXmlFile.GetRawDataHere (st : CXmlFile) (mem : Nat → Nat) (size : Nat) :
    (Nat → Nat) × Nat :=
  let mem0 := fun i => if i < size then 0 else mem i
  let chunks := match st.m_document with
    | some d => serializeDocChunks d
    | none => serializeDocChunks ⟨true, []⟩
  runWriter chunks mem0 0 size

def chunksLen (cs : List (List Nat)) : Nat :=
  cs.foldl (fun a c => a + c.length) 0

theorem foldl_len_shift (cs : List (List Nat)) (a : Nat) :
    cs.foldl (fun x c => x + c.length) a = a + chunksLen cs := by
  induction cs generalizing a with
  | nil => simp [chunksLen]
  | cons c t ih =>
    simp only [List.foldl_cons, chunksLen]
    rw [ih, ih (0 + c.length)]
    omega

theorem chunksLen_cons (c : List Nat) (cs : List (List Nat)) :
    chunksLen (c :: cs) = c.length + chunksLen cs := by
  simp only [chunksLen, List.foldl_cons, Nat.zero_add]
  exact foldl_len_shift cs c.length

theorem runWriter_pos (cs : List (List Nat)) (m : Nat → Nat) (pos size : Nat)
    (h : pos ≤ size) :
    pos ≤ (runWriter cs m pos size).2 ∧ (runWriter cs m pos size).2 ≤ size := by
  induction cs generalizing m pos with
  | nil => exact ⟨le_rfl, h⟩
  | cons c t ih =>
    simp only [runWriter]
    by_cases hfit : pos + c.length ≤ size
    · rw [if_pos hfit]
      have := ih (writeMem m pos c) (pos + c.length) hfit
      exact ⟨le_trans (Nat.le_add_right _ _) this.1, this.2⟩
    · rw [if_neg hfit]
      exact ih m pos h

theorem runWriter_all_fit (cs : List (List Nat)) (m : Nat → Nat)
    (pos size : Nat) (h : pos + chunksLen cs ≤ size) :
    (runWriter cs m pos size).2 = pos + chunksLen cs := by
  induction cs generalizing m pos with
  | nil => simp [runWriter, chunksLen]
  | cons c t ih =>
    rw [chunksLen_cons] at h
    simp only [runWriter]
    rw [if_pos (by omega)]
    rw [ih (writeMem m pos c) (pos + c.length) (by omega), chunksLen_cons]
    omega

theorem runWriter_untouched (cs : List (List Nat)) (m : Nat → Nat)
    (pos size : Nat) (hpos : pos ≤ size) :
    ∀ i, size ≤ i → (runWriter cs m pos size).1 i = m i := by
  induction cs generalizing m pos with
  | nil => intro i _; rfl
  | cons c t ih =>
    intro i hi
    simp only [runWriter]
    by_cases hfit : pos + c.length ≤ size
    · rw [if_pos hfit]
      rw [ih (writeMem m pos c) (pos + c.length) hfit i hi]
      simp only [writeMem]
      rw [if_neg (by omega)]
    · rw [if_neg hfit]
      exact ih m pos hpos i hi

theorem runWriter_zero_tail (cs : List (List Nat)) (m : Nat → Nat)
    (pos size : Nat) (hpos : pos ≤ size)
    (hm : ∀ i, pos ≤ i → i < size → m i = 0) :
    ∀ i, (runWriter cs m pos size).2 ≤ i → i < size →
      (runWriter cs m pos size).1 i = 0 := by
  induction cs generalizing m pos with
  | nil =>
    intro i hi1 hi2
    exact hm i hi1 hi2
  | cons c t ih =>
    intro i hi1 hi2
    simp only [runWriter] at hi1 ⊢
    by_cases hfit : pos + c.length ≤ size
    · rw [if_pos hfit] at hi1 ⊢
      refine ih (writeMem m pos c) (pos + c.length) hfit ?_ i hi1 hi2
      intro j hj1 hj2
      simp only [writeMem]
      rw [if_neg (by omega)]
      exact hm j (by omega) hj2
    · rw [if_neg hfit] at hi1 ⊢
      exact ih m pos hpos hm i hi1 hi2

/-! ## Auxiliary facts for the persistence-engine claims -/

theorem ne_append_tilde (s : String) : s ≠ s ++ "~" := by
  intro h
  have hd : s.data = s.data ++ ['~'] := by
    have := congrArg String.data h
    simpa using this
  have := congrArg List.length hd
  simp at this

theorem findIdx?_aux_bound {α : Type} (p : α → Bool) :
    ∀ (l : List α) (s i : Nat), List.findIdx? p l s = some i →
      s ≤ i ∧ i - s < l.length := by
  intro l
  induction l with
  | nil => intro s i h; simp [List.findIdx?] at h
  | cons a t ih =>
    intro s i h
    simp only [List.findIdx?] at h
    by_cases hpa : p a
    · rw [if_pos hpa] at h
      simp only [Option.some.injEq] at h
      subst h
      simp
    · rw [if_neg hpa] at h
      have := ih (s + 1) i h
      simp only [List.length_cons]
      omega

theorem findIdx?_lt_length {α : Type} (p : α → Bool) (l : List α) (i : Nat)
    (h : l.findIdx? p = some i) : i < l.length := by
  have := findIdx?_aux_bound p l 0 i h
  omega

theorem GetXmlFile_spec (st : CXmlFile) (fs : Fs) (f : String) :
    ((st.GetXmlFile fs f).2 = true →
      ((st.GetXmlFile fs f).1.GetElement).isSome) ∧
    ((st.GetXmlFile fs f).2 = false →
      (st.GetXmlFile fs f).1.m_document = none ∧
        (st.GetXmlFile fs f).1.m_element = none) := by
  by_cases h1 : fsSizeLeZero fs f
  · simp [CXmlFile.GetXmlFile, h1, CXmlFile.Close]
  · rcases h2 : fs f with _ | e
    · simp [CXmlFile.GetXmlFile, h1, h2, CXmlFile.Close]
    · rcases h3 : e.data with _ | ⟨d, o⟩ | roots
      · simp [CXmlFile.GetXmlFile, h1, h2, h3, CXmlFile.Close]
      · simp [CXmlFile.GetXmlFile, h1, h2, h3, CXmlFile.Close]
      · rcases h4 : roots.findIdx? (fun r => r.name = st.m_rootName) with _ | i
        · by_cases h5 : roots.isEmpty
          · simp [CXmlFile.GetXmlFile, h1, h2, h3, h4, h5, CXmlFile.Close,
              CXmlFile.GetElement]
          · simp [CXmlFile.GetXmlFile, h1, h2, h3, h4, h5, CXmlFile.Close]
        · have hlt := findIdx?_lt_length _ roots i h4
          simp [CXmlFile.GetXmlFile, h1, h2, h3, h4, CXmlFile.Close,
            CXmlFile.GetElement, List.get?_eq_getElem?,
            List.getElem?_eq_getElem hlt]

theorem UpdateMetadata_fileName (st : CXmlFile) :
    st.UpdateMetadata.m_fileName = st.m_fileName := by
  unfold CXmlFile.UpdateMetadata
  cases st.m_document <;> cases st.m_element <;> simp only [] <;>
    try rfl
  case some.some d i =>
    cases d.roots.get? i with
    | none => rfl
    | some e =>
      simp only []
      split_ifs <;> rfl

/-! ## Credential preservation by the tail stages of GetServer -/

theorem foldl_server_credentials {α : Type} (f : CServer → α → CServer)
    (l : List α) (site : Site) :
    (l.foldl (fun s p => { s with server := f s.server p }) site).credentials =
      site.credentials := by
  induction l generalizing site with
  | nil => rfl
  | cons hd t ih => simp only [List.foldl_cons]; rw [ih]

theorem GetServerRest3_credentials (node : XmlElem) (site : Site) :
    (GetServerRest3 node site).1.credentials = site.credentials := by
  unfold GetServerRest3
  simp only []
  rw [foldl_server_credentials
    (fun sv p => sv.SetExtraParameter (p.attribute "Name") (GetTextElementSelf p))]
  split <;> rfl

theorem GetServerRest2_credentials (node : XmlElem) (site : Site) :
    (GetServerRest2 node site).1.credentials = site.credentials := by
  unfold GetServerRest2
  simp only []
  split
  · rfl
  · rename_i site2 heq
    rw [GetServerRest3_credentials]
    split at heq
    · split at heq
      · cases heq
      · cases heq
        rfl
    · cases heq
      rfl

theorem GetServerRest_credentials (node : XmlElem) (site : Site) :
    (GetServerRest node site).1.credentials = site.credentials := by
  unfold GetServerRest
  cases htz : site.server.SetTimezoneOffset
      (GetTextElementInt node "TimezoneOffset" 0) with
  | none => rfl
  | some sv =>
    simp only []
    by_cases hA : GetTextElement node "EncodingType" = "Auto"
    · rw [if_pos hA]
      simp only []
      rw [GetServerRest2_credentials]
    · rw [if_neg hA]
      by_cases hU : GetTextElement node "EncodingType" = "UTF-8"
      · rw [if_pos hU]
        simp only []
        rw [GetServerRest2_credentials]
      · rw [if_neg hU]
        by_cases hC : GetTextElement node "EncodingType" = "Custom"
        · rw [if_pos hC]
          by_cases hce : GetTextElement node "CustomEncoding" = ""
          · rw [if_pos hce]
          · rw [if_neg hce]
            unfold CServer.SetEncodingType
            simp only []
            rw [if_neg hce]
            simp only []
            rw [GetServerRest2_credentials]
        · rw [if_neg hC]
          simp only []
          rw [GetServerRest2_credentials]

/-- `GetElement` right after `CreateEmpty` is the fresh root element. -/
theorem CreateEmpty_GetElement (st : CXmlFile) :
    st.CreateEmpty.GetElement = some (XmlElem.node st.m_rootName [] "" []) := rfl

theorem GetXmlFile_fileName (st : CXmlFile) (fs : Fs) (f : String) :
    (st.GetXmlFile fs f).1.m_fileName = st.m_fileName := by
  by_cases h1 : fsSizeLeZero fs f
  · simp [CXmlFile.GetXmlFile, h1, CXmlFile.Close]
  · rcases h2 : fs f with _ | e
    · simp [CXmlFile.GetXmlFile, h1, h2, CXmlFile.Close]
    · rcases h3 : e.data with _ | ⟨d, o⟩ | roots
      · simp [CXmlFile.GetXmlFile, h1, h2, h3, CXmlFile.Close]
      · simp [CXmlFile.GetXmlFile, h1, h2, h3, CXmlFile.Close]
      · rcases h4 : roots.findIdx? (fun r => r.name = st.m_rootName) with _ | i
        · by_cases h5 : roots.isEmpty <;>
            simp [CXmlFile.GetXmlFile, h1, h2, h3, h4, h5, CXmlFile.Close]
        · simp [CXmlFile.GetXmlFile, h1, h2, h3, h4, CXmlFile.Close]

theorem GetXmlFile_rootName (st : CXmlFile) (fs : Fs) (f : String) :
    (st.GetXmlFile fs f).1.m_rootName = st.m_rootName := by
  by_cases h1 : fsSizeLeZero fs f
  · simp [CXmlFile.GetXmlFile, h1, CXmlFile.Close]
  · rcases h2 : fs f with _ | e
    · simp [CXmlFile.GetXmlFile, h1, h2, CXmlFile.Close]
    · rcases h3 : e.data with _ | ⟨d, o⟩ | roots
      · simp [CXmlFile.GetXmlFile, h1, h2, h3, CXmlFile.Close]
      · simp [CXmlFile.GetXmlFile, h1, h2, h3, CXmlFile.Close]
      · rcases h4 : roots.findIdx? (fun r => r.name = st.m_rootName) with _ | i
        · by_cases h5 : roots.isEmpty <;>
            simp [CXmlFile.GetXmlFile, h1, h2, h3, h4, h5, CXmlFile.Close]
        · simp [CXmlFile.GetXmlFile, h1, h2, h3, h4, CXmlFile.Close]

theorem GetXmlFile_bool_only_root (st st' : CXmlFile) (fs : Fs) (f : String)
    (h : st.m_rootName = st'.m_rootName) :
    (st.GetXmlFile fs f).2 = (st'.GetXmlFile fs f).2 := by
  by_cases h1 : fsSizeLeZero fs f
  · simp [CXmlFile.GetXmlFile, h1, CXmlFile.Close]
  · rcases h2 : fs f with _ | e
    · simp [CXmlFile.GetXmlFile, h1, h2, CXmlFile.Close]
    · rcases h3 : e.data with _ | ⟨d, o⟩ | roots
      · simp [CXmlFile.GetXmlFile, h1, h2, h3, CXmlFile.Close]
      · simp [CXmlFile.GetXmlFile, h1, h2, h3, CXmlFile.Close]
      · rcases h4 : roots.findIdx? (fun r => r.name = st'.m_rootName) with _ | i
        · by_cases h5 : roots.isEmpty <;>
            simp [CXmlFile.GetXmlFile, h1, h2, h3, h, h4, h5, CXmlFile.Close]
        · simp [CXmlFile.GetXmlFile, h1, h2, h3, h, h4, CXmlFile.Close]

/-! ## Witness data

Concrete states, filesystems and nodes at which the claim theorems are
instantiated. -/

/-- A representative valid `Site` for the round-trip claim. -/
def rtSite : Site :=
  { server :=
      { host := "example.com", port := 21, protocol := 0, serverType := 0,
        user := "alice", timezoneOffset := 60, pasvMode := .passive,
        maximumMultipleConnections := 2, encodingType := .utf8,
        postLoginCommands := [], bypassProxy := true, name := "My Site",
        extraParameters := [("a", "1"), ("b", "2")] },
    credentials :=
      { logonType := .normal, pass := "secret", account := "", keyFile := "",
        encrypted := none } }

/-- A node whose `Host` and `Port` are acceptable but whose `Protocol`
value 26 lies outside the enumeration range 0–25. -/
def c4node : XmlElem :=
  .node "Server" [] ""
    [.node "Host" [] "h" [], .node "Port" [] "21" [],
     .node "Protocol" [] "26" []]

/-- A `Pass` element tagged `crypt` whose `pubkey` attribute is not a
parsable public key. -/
def c5pass : XmlElem :=
  .node "Pass" [("encoding", "crypt"), ("pubkey", "!bad")] "xyz" []

def c5node : XmlElem :=
  .node "Server" [] ""
    [.node "Host" [] "h" [], .node "Port" [] "21" [],
     .node "Protocol" [] "0" [], .node "Type" [] "0" [],
     .node "Logontype" [] "1" [], .node "User" [] "u" [], c5pass]

/-- The site `GetServer` produces from `c5node`: logon type downgraded to
`ask`, password cleared. -/
def c5site : Site :=
  { server :=
      { host := "h", port := 21, protocol := 0, serverType := 0, user := "u",
        timezoneOffset := 0, pasvMode := .default,
        maximumMultipleConnections := 0, encodingType := .auto,
        postLoginCommands := [], bypassProxy := false, name := "",
        extraParameters := [] },
    credentials :=
      { logonType := .ask, pass := "", account := "", keyFile := "",
        encrypted := none } }

def rawDoc : XmlDoc := ⟨true, [XmlElem.node "FileZilla3" [] "" []]⟩

def rawSt : CXmlFile :=
  { m_fileName := "f", m_rootName := "FileZilla3",
    m_document := some rawDoc, m_element := some 0, m_error := "",
    m_modificationTime := none }

def c8roots : List XmlElem := [XmlElem.node "Foreign" [] "" []]

def c8fs : Fs :=
  fun p => if p = "f" then some ⟨.wellFormed c8roots, 3⟩ else none

def c1st : CXmlFile :=
  { m_fileName := "f", m_rootName := "FileZilla3",
    m_document := (some ⟨true, [XmlElem.node "FileZilla3" [] "" []]⟩),
    m_element := some 0, m_error := "", m_modificationTime := none }

def c1fs : Fs :=
  fun p =>
    if p = "f" then
      some ⟨.wellFormed [XmlElem.node "FileZilla3" [] "" []], 5⟩
    else none

def c2st : CXmlFile := CXmlFile.make "f" ""

def c2roots : List XmlElem := [XmlElem.node "FileZilla3" [] "" []]

def c2fs : Fs :=
  fun p => if p = "f~" then some ⟨.wellFormed c2roots, 7⟩ else none

def c6fs : Fs := fun _ => none

/-- A filesystem with a malformed primary file and no backup: neither
file is usable, though neither is empty. -/
def c6fs2 : Fs :=
  fun p => if p = "f" then some ⟨.malformed "boom" 2, 4⟩ else none

def c10st : CXmlFile := CXmlFile.make "f" ""

def c10fs : Fs :=
  fun p => if p = "f" then some ⟨.malformed "e" 0, 1⟩ else none

/-! ## The claims -/

/-- Claim C1: when the write step of `Save` fails after the backup copy
was made, `Save` returns `false`, records the write-failure error, and the
filesystem ends up exactly as before the attempt — in particular the
original file's bytes and modification time are untouched and no `~`
backup remains. -/
theorem Save_write_failure (st : CXmlFile) (fs : Fs) (t : Nat)
    (printErr : Bool) (pd : Option FsEntry) (d : XmlDoc) (entry : FsEntry)
    (hname : st.m_fileName ≠ "")
    (hdoc : st.m_document = some d)
    (hfile : fs st.m_fileName = some entry)
    (hnobak : fs (st.m_fileName ++ "~") = none) :
    (st.Save fs t printErr false pd).2.2 = false ∧
      (st.Save fs t printErr false pd).2.1.m_error =
        "Failed to write xml file" ∧
      (∀ p, (st.Save fs t printErr false pd).1 p = fs p) := by
  have hne := ne_append_tilde st.m_fileName
  unfold CXmlFile.Save
  simp only []
  rw [if_neg hname]
  rw [if_neg (by simp [hdoc])]
  unfold CXmlFile.SaveXmlFile
  simp only []
  rw [show ({ st with m_error := "" } : CXmlFile).UpdateMetadata.m_fileName =
      st.m_fileName from UpdateMetadata_fileName _]
  rw [hfile]
  simp only [Option.isSome_some, if_true, Bool.false_eq_true, if_false]
  refine ⟨trivial, trivial, ?_⟩
  intro p
  by_cases hp1 : p = st.m_fileName
  · subst hp1
    cases pd with
    | none =>
      simp [fsRename, fsRemove, fsCopy, hne, Ne.symm hne, hfile]
    | some e2 =>
      simp [fsRename, fsRemove, fsWrite, fsCopy, hne, Ne.symm hne, hfile]
  · by_cases hp2 : p = st.m_fileName ++ "~"
    · subst hp2
      cases pd with
      | none =>
        simp [fsRename, fsRemove, fsCopy, hne, Ne.symm hne, hnobak]
      | some e2 =>
        simp [fsRename, fsRemove, fsWrite, fsCopy, hne, Ne.symm hne, hnobak]
    · cases pd with
      | none =>
        simp [fsRename, fsRemove, fsCopy, hp1, hp2]
      | some e2 =>
        simp [fsRename, fsRemove, fsWrite, fsCopy, hp1, hp2]

theorem Save_write_failure_witness :
    (c1st.m_fileName ≠ "" ∧
      c1st.m_document =
        (some ⟨true, [XmlElem.node "FileZilla3" [] "" []]⟩) ∧
      c1fs c1st.m_fileName =
        some ⟨.wellFormed [XmlElem.node "FileZilla3" [] "" []], 5⟩ ∧
      c1fs (c1st.m_fileName ++ "~") = none) ∧
    ((c1st.Save c1fs 9 true false none).2.2 = false ∧
      (c1st.Save c1fs 9 true false none).2.1.m_error =
        "Failed to write xml file" ∧
      ∀ p, (c1st.Save c1fs 9 true false none).1 p = c1fs p) :=
  ⟨⟨by decide, rfl, rfl, rfl⟩,
    Save_write_failure c1st c1fs 9 true none
      ⟨true, [XmlElem.node "FileZilla3" [] "" []]⟩
      ⟨.wellFormed [XmlElem.node "FileZilla3" [] "" []], 5⟩
      (by decide) rfl rfl rfl⟩

/-- Claim C2: when the primary file fails to load — it is missing,
zero-length or malformed — but the `~` backup parses and contains the
expected root, `Load` copies the backup over the primary, deletes the
backup, clears the error, refreshes the staleness timestamp from the
restored file, and returns the backup's root element. -/
theorem Load_backup_recovery (st : CXmlFile) (fs : Fs) (ov : Bool)
    (bentry : FsEntry) (roots : List XmlElem) (i : Nat)
    (hname : st.m_fileName ≠ "")
    (hfail : fsSizeLeZero fs st.m_fileName = true ∨
      ∃ entry d o, fs st.m_fileName = some entry ∧
        entry.data = FileData.malformed d o)
    (hb : fs (st.m_fileName ++ "~") = some bentry)
    (hbd : bentry.data = .wellFormed roots)
    (hidx : roots.findIdx? (fun r => r.name = st.m_rootName) = some i) :
    st.Load fs ov =
      (fsRemove (fsCopy fs (st.m_fileName ++ "~") st.m_fileName)
          (st.m_fileName ++ "~"),
        { m_fileName := st.m_fileName, m_rootName := st.m_rootName,
          m_document := (some ⟨false, roots⟩), m_element := some i,
          m_error := "", m_modificationTime := some bentry.mtime },
        roots.get? i) ∧
      (roots.get? i).isSome := by
  have hne := ne_append_tilde st.m_fileName
  have hsz2 : fsSizeLeZero fs (st.m_fileName ++ "~") = false := by
    simp [fsSizeLeZero, hb, hbd]
  have hmt : fsMTime
      (fsRemove (fsCopy fs (st.m_fileName ++ "~") st.m_fileName)
        (st.m_fileName ++ "~")) st.m_fileName = some bentry.mtime := by
    simp [fsMTime, fsRemove, fsCopy, hne, hb]
  constructor
  · unfold CXmlFile.Load
    unfold CXmlFile.Close
    simp only []
    rw [if_neg hname]
    unfold CXmlFile.GetXmlFile
    unfold CXmlFile.Close
    simp only []
    rcases hfail with hsz1 | ⟨entry, d, o, hp, hpd⟩
    · simp only [hsz1, hsz2, hb, hbd, hidx, hmt, Bool.false_eq_true,
        Bool.true_eq_false, if_false, if_true, Bool.not_true,
        not_false_eq_true, not_true_eq_false, ite_true, ite_false]
      unfold CXmlFile.GetElement
      simp only []
    · have hsz1 : fsSizeLeZero fs st.m_fileName = false := by
        simp [fsSizeLeZero, hp, hpd]
      simp only [hsz1, hp, hpd, hsz2, hb, hbd, hidx, hmt, Bool.false_eq_true,
        Bool.true_eq_false, if_false, if_true, Bool.not_true,
        not_false_eq_true, not_true_eq_false, ite_true, ite_false]
      unfold CXmlFile.GetElement
      simp only []
  · have hlt := findIdx?_lt_length _ roots i hidx
    simp [List.get?_eq_getElem?, List.getElem?_eq_getElem hlt]

theorem Load_backup_recovery_witness :
    (c2st.m_fileName ≠ "" ∧
      fsSizeLeZero c2fs c2st.m_fileName = true ∧
      c2fs (c2st.m_fileName ++ "~") = some ⟨.wellFormed c2roots, 7⟩ ∧
      c2roots.findIdx? (fun r => r.name = c2st.m_rootName) = some 0) ∧
    (c2st.Load c2fs false =
      (fsRemove (fsCopy c2fs (c2st.m_fileName ++ "~") c2st.m_fileName)
          (c2st.m_fileName ++ "~"),
        { m_fileName := c2st.m_fileName, m_rootName := c2st.m_rootName,
          m_document := (some ⟨false, c2roots⟩), m_element := some 0,
          m_error := "", m_modificationTime := some 7 },
        c2roots.get? 0) ∧
      (c2roots.get? 0).isSome) :=
  ⟨⟨by decide, rfl, rfl, rfl⟩,
    Load_backup_recovery c2st c2fs false ⟨.wellFormed c2roots, 7⟩ c2roots 0
      (by decide) (Or.inl rfl) rfl rfl rfl⟩

/-- Claim C3: for every valid `Site`, decoding the node written by
`SetServer` with `GetServer` succeeds and returns the site back — every
field round-trips (in this model the display name always round-trips
because an empty name is re-derived from the node's own empty text). -/
theorem GetServer_SetServer_rt (node0 : XmlElem) (s : Site)
    (hv : validSite s) :
    GetServer (SetServer node0 s) defaultSite = (s, true) :=
  GetServer_SetServer node0 s hv

theorem GetServer_SetServer_rt_witness :
    validSite rtSite ∧
      GetServer (SetServer (XmlElem.node "Server" [] "" []) rtSite)
          defaultSite = (rtSite, true) :=
  ⟨by decide, GetServer_SetServer_rt (XmlElem.node "Server" [] "" []) rtSite
    (by decide)⟩

/-- C4 counterexample: an out-of-range `Protocol` makes `GetServer` fail,
but the decoded `Site` has already been mutated — its host is the node's
host, not the caller's original value, so a partial `Site` IS committed on
this failure path. -/
theorem GetServer_commits_host_before_range_checks :
    (GetServer c4node defaultSite).2 = false ∧
      (GetServer c4node defaultSite).1 ≠ defaultSite ∧
      (GetServer c4node defaultSite).1.server.host = "h" := by decide

/-- Claim C4 (amended): every malformed scalar field (empty host, port
outside 1–65535, out-of-range protocol / type / logon type) makes
`GetServer` return `false`, and for host and port failures — which are
checked before any field is written — the caller's `Site` is returned
unchanged.  (For protocol/type/logon-type failures the host and port have
already been committed; see the counterexample.) -/
theorem GetServer_reject (node : XmlElem) (site : Site)
    (h : GetTextElement node "Host" = "" ∨
      GetTextElementInt node "Port" 0 < 1 ∨
      GetTextElementInt node "Port" 0 > 65535 ∨
      GetTextElementInt node "Protocol" 0 < 0 ∨
      GetTextElementInt node "Protocol" 0 > (ServerProtocolMaxValue : Int) ∨
      GetTextElementInt node "Type" 0 < 0 ∨
      GetTextElementInt node "Type" 0 ≥ (SERVERTYPE_MAX : Int) ∨
      GetTextElementInt node "Logontype" 0 < 0 ∨
      GetTextElementInt node "Logontype" 0 ≥ (LogonTypeCount : Int)) :
    (GetServer node site).2 = false ∧
      (GetTextElement node "Host" = "" ∨
        GetTextElementInt node "Port" 0 < 1 ∨
        GetTextElementInt node "Port" 0 > 65535 →
        GetServer node site = (site, false)) := by
  constructor
  · unfold GetServer
    by_cases h1 : GetTextElement node "Host" = ""
    · rw [if_pos h1]
    · rw [if_neg h1]
      by_cases h2 : GetTextElementInt node "Port" 0 < 1 ∨
          GetTextElementInt node "Port" 0 > 65535
      · rw [if_pos h2]
      · rw [if_neg h2]
        cases hsh : site.server.SetHost (GetTextElement node "Host")
            (GetTextElementInt node "Port" 0) with
        | none => rfl
        | some sv =>
          simp only []
          by_cases h3 : GetTextElementInt node "Protocol" 0 < 0 ∨
              GetTextElementInt node "Protocol" 0 >
                (ServerProtocolMaxValue : Int)
          · rw [if_pos h3]
          · rw [if_neg h3]
            by_cases h4 : GetTextElementInt node "Type" 0 < 0 ∨
                GetTextElementInt node "Type" 0 ≥ (SERVERTYPE_MAX : Int)
            · rw [if_pos h4]
            · rw [if_neg h4]
              by_cases h5 : GetTextElementInt node "Logontype" 0 < 0 ∨
                  GetTextElementInt node "Logontype" 0 ≥ (LogonTypeCount : Int)
              · rw [if_pos h5]
              · exact absurd h (by tauto)
  · intro h2
    unfold GetServer
    by_cases h1 : GetTextElement node "Host" = ""
    · rw [if_pos h1]
    · rw [if_neg h1]
      rw [if_pos (by tauto)]

theorem GetServer_reject_witness :
    GetTextElement (XmlElem.node "Server" [] "" []) "Host" = "" ∧
      ((GetServer (XmlElem.node "Server" [] "" []) defaultSite).2 = false ∧
        (GetTextElement (XmlElem.node "Server" [] "" []) "Host" = "" ∨
          GetTextElementInt (XmlElem.node "Server" [] "" []) "Port" 0 < 1 ∨
          GetTextElementInt (XmlElem.node "Server" [] "" []) "Port" 0 > 65535 →
          GetServer (XmlElem.node "Server" [] "" []) defaultSite =
            (defaultSite, false))) :=
  ⟨rfl, GetServer_reject (XmlElem.node "Server" [] "" []) defaultSite
    (Or.inl rfl)⟩

/-- Claim C5: for a node whose logon type decodes to normal (1) or
account (2) and which carries a `Pass` child, a successful `GetServer`
decode behaves as follows — a `crypt` encoding whose `pubkey` fails to
parse clears the password and downgrades the logon type to `ask`; any
other unrecognized non-empty encoding also downgrades to `ask` (clearing
the password); and a `base64` encoding recovers exactly the plaintext
that was encoded. -/
theorem GetServer_password_decoding (node : XmlElem) (s2 : Site)
    (pe : XmlElem)
    (hlt : GetTextElementInt node "Logontype" 0 = 1 ∨
      GetTextElementInt node "Logontype" 0 = 2)
    (hpe : node.child "Pass" = some pe)
    (hres : GetServer node defaultSite = (s2, true)) :
    (GetTextAttribute pe "encoding" = "crypt" →
      publicKeyFromBase64 (pe.attribute "pubkey") = none →
      s2.credentials.logonType = .ask ∧ s2.credentials.pass = "") ∧
    (GetTextAttribute pe "encoding" ≠ "" →
      GetTextAttribute pe "encoding" ≠ "base64" →
      GetTextAttribute pe "encoding" ≠ "crypt" →
      s2.credentials.logonType = .ask ∧ s2.credentials.pass = "") ∧
    (∀ plain, GetTextAttribute pe "encoding" = "base64" →
      pe.text = base64Encode (toUtf8 plain) →
      s2.credentials.pass = plain) := by
  rcases hlt with h | h <;>
  · unfold GetServer at hres
    rw [h] at hres
    simp only [] at hres
    split at hres
    · simp at hres
    · split at hres
      · simp at hres
      · split at hres
        · simp at hres
        · rename_i sv hsh
          split at hres
          · simp at hres
          · split at hres
            · simp at hres
            · split at hres
              · simp at hres
              · split at hres
                · simp at hres
                · rename_i site3 hcr
                  have hceq : s2.credentials = site3.credentials := by
                    have h2 := GetServerRest_credentials node site3
                    rw [hres] at h2
                    exact h2
                  unfold GetServerCredentials at hcr
                  simp only [Site.SetLogonType] at hcr
                  rw [if_pos (by decide)] at hcr
                  split at hcr
                  · simp at hcr
                  · rw [if_pos (by decide), hpe] at hcr
                    simp only [] at hcr
                    split at hcr
                    · rename_i hencB
                      cases hcr
                      refine ⟨?_, ?_, ?_⟩
                      · intro h1 h2
                        rw [hencB] at h1
                        simp at h1
                      · intro h1 h2 h3
                        exact absurd hencB h2
                      · intro plain h1 h2
                        rw [hceq]
                        simp only [Site.SetUser, Credentials.SetPass]
                        rw [h2, base64Decode_base64Encode]
                        rfl
                    · split at hcr
                      · rename_i hencB hencC
                        split at hcr
                        · rename_i hkeyN
                          cases hcr
                          refine ⟨?_, ?_, ?_⟩
                          · intro h1 h2
                            rw [hceq]
                            exact ⟨rfl, rfl⟩
                          · intro h1 h2 h3
                            exact absurd hencC h3
                          · intro plain h1 h2
                            rw [hencC] at h1
                            simp at h1
                        · rename_i hkeyS
                          cases hcr
                          refine ⟨?_, ?_, ?_⟩
                          · intro h1 h2
                            rw [h2] at hkeyS
                            simp at hkeyS
                          · intro h1 h2 h3
                            exact absurd hencC h3
                          · intro plain h1 h2
                            rw [hencC] at h1
                            simp at h1
                      · split at hcr
                        · rename_i hencB hencC hencNE
                          cases hcr
                          refine ⟨?_, ?_, ?_⟩
                          · intro h1 h2
                            exact absurd h1 hencC
                          · intro h1 h2 h3
                            rw [hceq]
                            exact ⟨rfl, rfl⟩
                          · intro plain h1 h2
                            exact absurd h1 hencB
                        · rename_i hencB hencC hencE
                          cases hcr
                          refine ⟨?_, ?_, ?_⟩
                          · intro h1 h2
                            exact absurd h1 hencC
                          · intro h1 h2 h3
                            exact absurd (by
                              by_contra hc
                              exact hencE hc) h1
                          · intro plain h1 h2
                            exact absurd h1 hencB

theorem GetServer_password_decoding_witness :
    ((GetTextElementInt c5node "Logontype" 0 = 1 ∨
        GetTextElementInt c5node "Logontype" 0 = 2) ∧
      c5node.child "Pass" = some c5pass ∧
      GetServer c5node defaultSite = (c5site, true)) ∧
    ((GetTextAttribute c5pass "encoding" = "crypt" →
        publicKeyFromBase64 (c5pass.attribute "pubkey") = none →
        c5site.credentials.logonType = .ask ∧
          c5site.credentials.pass = "") ∧
      (GetTextAttribute c5pass "encoding" ≠ "" →
        GetTextAttribute c5pass "encoding" ≠ "base64" →
        GetTextAttribute c5pass "encoding" ≠ "crypt" →
        c5site.credentials.logonType = .ask ∧
          c5site.credentials.pass = "") ∧
      (∀ plain, GetTextAttribute c5pass "encoding" = "base64" →
        c5pass.text = base64Encode (toUtf8 plain) →
        c5site.credentials.pass = plain)) :=
  ⟨⟨Or.inl rfl, rfl, by decide⟩,
    GetServer_password_decoding c5node c5site c5pass (Or.inl rfl) rfl
      (by decide)⟩

/-- Claim C6: with the primary file missing or zero-length and the backup
likewise, `Load` does not fail for either value of `overwriteInvalid`: it
builds the root-only empty document (XML declaration plus configured
root), clears the error and refreshes the staleness timestamp; and with
`overwriteInvalid = true` the same empty document is built whenever both
load attempts fail, whatever the reason (missing, empty, malformed or
foreign-root files alike). -/
theorem Load_creates_empty (st : CXmlFile) (fs : Fs)
    (hname : st.m_fileName ≠ "") :
    (fsSizeLeZero fs st.m_fileName = true →
      fsSizeLeZero fs (st.m_fileName ++ "~") = true →
      ∀ ov, st.Load fs ov =
        (fs,
          { m_fileName := st.m_fileName, m_rootName := st.m_rootName,
            m_document := (some ⟨true, [XmlElem.node st.m_rootName [] "" []]⟩),
            m_element := some 0, m_error := "",
            m_modificationTime := fsMTime fs st.m_fileName },
          some (XmlElem.node st.m_rootName [] "" []))) ∧
    ((st.GetXmlFile fs st.m_fileName).2 = false →
      (st.GetXmlFile fs (st.m_fileName ++ "~")).2 = false →
      st.Load fs true =
        (fs,
          { m_fileName := st.m_fileName, m_rootName := st.m_rootName,
            m_document := (some ⟨true, [XmlElem.node st.m_rootName [] "" []]⟩),
            m_element := some 0, m_error := "",
            m_modificationTime := fsMTime fs st.m_fileName },
          some (XmlElem.node st.m_rootName [] "" []))) := by
  constructor
  · intro h1 h2 ov
    unfold CXmlFile.Load
    unfold CXmlFile.Close
    simp only []
    rw [if_neg hname]
    unfold CXmlFile.GetXmlFile
    unfold CXmlFile.Close
    simp only []
    simp only [h1, h2, Bool.true_eq_false, Bool.false_eq_true, if_false,
      if_true, Bool.not_true, not_false_eq_true, not_true_eq_false, ite_true,
      ite_false, Bool.and_self, Bool.or_true, Bool.true_or]
    unfold CXmlFile.CreateEmpty
    unfold CXmlFile.Close
    simp only []
    unfold CXmlFile.GetElement
    simp only [List.get?]
  · intro h1 h2
    have hr1 :
        (({ m_fileName := st.m_fileName, m_rootName := st.m_rootName,
              m_document := none, m_element := none, m_error := "",
              m_modificationTime := st.m_modificationTime } :
            CXmlFile).GetXmlFile fs st.m_fileName).2 = false := by
      rw [GetXmlFile_bool_only_root
        ({ m_fileName := st.m_fileName, m_rootName := st.m_rootName,
             m_document := none, m_element := none, m_error := "",
             m_modificationTime := st.m_modificationTime } : CXmlFile)
        st fs st.m_fileName rfl]
      exact h1
    have hr2 :
        ((({ m_fileName := st.m_fileName, m_rootName := st.m_rootName,
               m_document := none, m_element := none, m_error := "",
               m_modificationTime := st.m_modificationTime } :
             CXmlFile).GetXmlFile fs st.m_fileName).1.GetXmlFile fs
          (st.m_fileName ++ "~")).2 = false := by
      rw [GetXmlFile_bool_only_root
        ((({ m_fileName := st.m_fileName, m_rootName := st.m_rootName,
               m_document := none, m_element := none, m_error := "",
               m_modificationTime := st.m_modificationTime } :
             CXmlFile).GetXmlFile fs st.m_fileName).1)
        st fs (st.m_fileName ++ "~") (by rw [GetXmlFile_rootName])]
      exact h2
    unfold CXmlFile.Load
    unfold CXmlFile.Close
    simp only []
    rw [if_neg hname]
    simp only [hr1, hr2, Bool.true_eq_false, Bool.false_eq_true, if_false,
      if_true, Bool.not_true, not_false_eq_true, not_true_eq_false, ite_true,
      ite_false, Bool.true_or]
    unfold CXmlFile.CreateEmpty
    unfold CXmlFile.Close
    simp only []
    unfold CXmlFile.GetElement
    simp only [List.get?, GetXmlFile_fileName, GetXmlFile_rootName]

theorem Load_creates_empty_witness :
    ((CXmlFile.make "f" "").m_fileName ≠ "" ∧
      fsSizeLeZero c6fs (CXmlFile.make "f" "").m_fileName = true ∧
      fsSizeLeZero c6fs ((CXmlFile.make "f" "").m_fileName ++ "~") = true ∧
      ((CXmlFile.make "f" "").GetXmlFile c6fs2
        (CXmlFile.make "f" "").m_fileName).2 = false ∧
      ((CXmlFile.make "f" "").GetXmlFile c6fs2
        ((CXmlFile.make "f" "").m_fileName ++ "~")).2 = false) ∧
    (CXmlFile.make "f" "").Load c6fs false =
      (c6fs,
        { m_fileName := "f", m_rootName := "FileZilla3",
          m_document := (some ⟨true, [XmlElem.node "FileZilla3" [] "" []]⟩),
          m_element := some 0, m_error := "", m_modificationTime := none },
        some (XmlElem.node "FileZilla3" [] "" [])) ∧
    (CXmlFile.make "f" "").Load c6fs2 true =
      (c6fs2,
        { m_fileName := "f", m_rootName := "FileZilla3",
          m_document := (some ⟨true, [XmlElem.node "FileZilla3" [] "" []]⟩),
          m_element := some 0, m_error := "", m_modificationTime := some 4 },
        some (XmlElem.node "FileZilla3" [] "" [])) :=
  ⟨⟨by decide, rfl, rfl, rfl, rfl⟩,
    (Load_creates_empty (CXmlFile.make "f" "") c6fs (by decide)).1 rfl rfl
      false,
    (Load_creates_empty (CXmlFile.make "f" "") c6fs2 (by decide)).2 rfl rfl⟩

/-- Claim C7: for a loaded document, `GetRawDataLength` equals the number
of bytes `GetRawDataHere` copies whenever the buffer is large enough; the
writer never writes at or past `size`; and the tail of the buffer beyond
the copied bytes is zero-filled (the entire buffer when the data does not
fit). -/
theorem GetRawData_length_pad (st : CXmlFile) (mem : Nat → Nat) (size : Nat)
    (d : XmlDoc) (hdoc : st.m_document = some d) :
    (st.GetRawDataLength ≤ size →
      (st.GetRawDataHere mem size).2 = st.GetRawDataLength) ∧
    (∀ i, size ≤ i → (st.GetRawDataHere mem size).1 i = mem i) ∧
    (∀ i, (st.GetRawDataHere mem size).2 ≤ i → i < size →
      (st.GetRawDataHere mem size).1 i = 0) := by
  unfold CXmlFile.GetRawDataHere CXmlFile.GetRawDataLength
  rw [hdoc]
  simp only []
  rw [foldl_len_shift, Nat.zero_add]
  refine ⟨?_, ?_, ?_⟩
  · intro h
    have := runWriter_all_fit (serializeDocChunks d)
      (fun i => if i < size then 0 else mem i) 0 size (by omega)
    omega
  · intro i hi
    rw [runWriter_untouched (serializeDocChunks d)
      (fun i => if i < size then 0 else mem i) 0 size (Nat.zero_le _) i hi]
    rw [if_neg (by omega)]
  · exact runWriter_zero_tail (serializeDocChunks d)
      (fun i => if i < size then 0 else mem i) 0 size (Nat.zero_le _)
      (fun j _ hj2 => by simp [hj2])

theorem GetRawData_length_pad_witness :
    rawSt.m_document = some rawDoc ∧
      ((rawSt.GetRawDataLength ≤ 100 →
        (rawSt.GetRawDataHere (fun _ => 7) 100).2 = rawSt.GetRawDataLength) ∧
      (∀ i, 100 ≤ i → (rawSt.GetRawDataHere (fun _ => 7) 100).1 i = 7) ∧
      (∀ i, (rawSt.GetRawDataHere (fun _ => 7) 100).2 ≤ i → i < 100 →
        (rawSt.GetRawDataHere (fun _ => 7) 100).1 i = 0)) :=
  ⟨rfl, GetRawData_length_pad rawSt (fun _ => 7) 100 rawDoc rfl⟩

/-- Claim C8: a parse adopts a document exactly when the configured root
element is present.  `ParseData` keeps the parsed buffer and points at the
matching root, and otherwise leaves the state closed; `GetXmlFile` on a
well-formed file whose top-level elements do not include the expected root
fails with the foreign-root error and leaves no document loaded, while a
genuinely empty parsed document gets a root synthesized instead of
failing. -/
theorem parse_requires_matching_root (st : CXmlFile) (data : FileData)
    (fs : Fs) (f : String) :
    (∀ roots i, data = .wellFormed roots →
      roots.findIdx? (fun r => r.name = st.m_rootName) = some i →
      (st.ParseData data).2 = true ∧
        (st.ParseData data).1.m_document = some ⟨false, roots⟩ ∧
        (st.ParseData data).1.m_element = some i) ∧
    (∀ roots, data = .wellFormed roots →
      roots.findIdx? (fun r => r.name = st.m_rootName) = none →
      (st.ParseData data).2 = false ∧
        (st.ParseData data).1.m_document = none ∧
        (st.ParseData data).1.m_element = none) ∧
    (∀ e roots, fs f = some e → e.data = .wellFormed roots → roots ≠ [] →
      roots.findIdx? (fun r => r.name = st.m_rootName) = none →
      (st.GetXmlFile fs f).2 = false ∧
        (st.GetXmlFile fs f).1.m_error = unknownRootError ∧
        (st.GetXmlFile fs f).1.m_document = none) ∧
    (∀ e, fs f = some e → e.data = .wellFormed [] →
      (st.GetXmlFile fs f).2 = true ∧
        (st.GetXmlFile fs f).1.m_document =
          some ⟨false, [XmlElem.node st.m_rootName [] "" []]⟩ ∧
        (st.GetXmlFile fs f).1.m_element = some 0) := by
  refine ⟨?_, ?_, ?_, ?_⟩
  · intro roots i hdata hidx
    subst hdata
    unfold CXmlFile.ParseData
    simp only [CXmlFile.Close]
    rw [hidx]
    simp only []
    exact ⟨trivial, trivial, trivial⟩
  · intro roots hdata hidx
    subst hdata
    unfold CXmlFile.ParseData
    simp only [CXmlFile.Close]
    rw [hidx]
    simp only []
    exact ⟨trivial, trivial, trivial⟩
  · intro e roots hfs hdata hne hidx
    have hsz : fsSizeLeZero fs f = false := by
      simp [fsSizeLeZero, hfs, hdata]
    have hemp : roots.isEmpty = false := by
      cases roots with
      | nil => exact absurd rfl hne
      | cons a t => rfl
    unfold CXmlFile.GetXmlFile
    rw [hsz, hfs]
    simp only [Bool.false_eq_true, if_false]
    rw [hdata]
    simp only [CXmlFile.Close]
    rw [hidx]
    simp only []
    rw [hemp]
    simp only [Bool.false_eq_true, if_false]
    exact ⟨trivial, trivial, trivial⟩
  · intro e hfs hdata
    have hsz : fsSizeLeZero fs f = false := by
      simp [fsSizeLeZero, hfs, hdata]
    unfold CXmlFile.GetXmlFile
    rw [hsz, hfs]
    simp only [Bool.false_eq_true, if_false]
    rw [hdata]
    simp only [CXmlFile.Close]
    simp only [List.findIdx?]
    simp only [List.isEmpty_nil, if_true]
    exact ⟨trivial, trivial, trivial⟩

theorem parse_requires_matching_root_witness :
    ((FileData.wellFormed c8roots = FileData.wellFormed c8roots) ∧
      c8roots.findIdx?
        (fun r => r.name = (CXmlFile.make "f" "").m_rootName) = none ∧
      c8fs "f" = some ⟨.wellFormed c8roots, 3⟩ ∧ c8roots ≠ []) ∧
    (((CXmlFile.make "f" "").ParseData (.wellFormed c8roots)).2 = false ∧
      ((CXmlFile.make "f" "").ParseData
        (.wellFormed c8roots)).1.m_document = none ∧
      ((CXmlFile.make "f" "").ParseData
        (.wellFormed c8roots)).1.m_element = none) ∧
    (((CXmlFile.make "f" "").GetXmlFile c8fs "f").2 = false ∧
      ((CXmlFile.make "f" "").GetXmlFile c8fs "f").1.m_error =
        unknownRootError ∧
      ((CXmlFile.make "f" "").GetXmlFile c8fs "f").1.m_document = none) :=
  ⟨⟨rfl, rfl, rfl, by simp [c8roots]⟩,
    (parse_requires_matching_root (CXmlFile.make "f" "")
      (.wellFormed c8roots) c8fs "f").2.1 c8roots rfl rfl,
    (parse_requires_matching_root (CXmlFile.make "f" "")
      (.wellFormed c8roots) c8fs "f").2.2.1 ⟨.wellFormed c8roots, 3⟩ c8roots
      rfl rfl (by simp [c8roots]) rfl⟩

/-- C9 counterexample: a `CXmlFile` configured with the overridden root
name "Foo" holds a root element matching its configured document type,
yet `UpdateMetadata` writes no version/platform attributes — the code
compares against the literal "FileZilla3", not the configured root name
(and stamping would have changed the element, as the last conjunct
shows). -/
theorem UpdateMetadata_ignores_configured_root :
    (CXmlFile.make "f" "Foo").m_rootName = "Foo" ∧
      ((CXmlFile.make "f" "Foo").CreateEmpty).GetElement =
        some (XmlElem.node "Foo" [] "" []) ∧
      ((CXmlFile.make "f" "Foo").CreateEmpty).UpdateMetadata =
        (CXmlFile.make "f" "Foo").CreateEmpty ∧
      (XmlElem.node "Foo" [] "" []).setAttr "version" buildVersion ≠
        XmlElem.node "Foo" [] "" [] := by
  refine ⟨rfl, rfl, rfl, ?_⟩
  simp [XmlElem.setAttr]

/-- Claim C9 (amended): `UpdateMetadata` stamps the version and platform
attributes onto the distinguished element if and only if that element's
name is the literal string "FileZilla3"; with any other name — including
one equal to the configured root name — the state is returned
untouched. -/
theorem UpdateMetadata_literal (st : CXmlFile) (d : XmlDoc) (i : Nat)
    (e : XmlElem) (hd : st.m_document = some d) (hi : st.m_element = some i)
    (he : d.roots.get? i = some e) :
    st.UpdateMetadata =
      if e.name = "FileZilla3" then
        { st with m_document := (some ⟨d.hasDecl, d.roots.set i
            ((e.setAttr "version" buildVersion).setAttr "platform"
              buildPlatform)⟩) }
      else st := by
  unfold CXmlFile.UpdateMetadata
  rw [hd, hi]
  simp only []
  rw [he]
  simp only []
  by_cases hn : e.name = "FileZilla3"
  · rw [if_neg (by simp [hn]), if_pos hn]
  · rw [if_pos hn, if_neg hn]

theorem UpdateMetadata_literal_witness :
    ((CXmlFile.make "f" "").CreateEmpty).m_document =
        some ⟨true, [XmlElem.node "FileZilla3" [] "" []]⟩ ∧
      ((CXmlFile.make "f" "").CreateEmpty).m_element = some 0 ∧
      ([XmlElem.node "FileZilla3" [] "" []] : List XmlElem).get? 0 =
        some (XmlElem.node "FileZilla3" [] "" []) ∧
      ((CXmlFile.make "f" "").CreateEmpty).UpdateMetadata =
        (if (XmlElem.node "FileZilla3" [] "" []).name = "FileZilla3" then
          { (CXmlFile.make "f" "").CreateEmpty with m_document :=
              (some ⟨true, ([XmlElem.node "FileZilla3" [] "" []]).set 0
                (((XmlElem.node "FileZilla3" [] "" []).setAttr "version"
                    buildVersion).setAttr "platform" buildPlatform)⟩) }
        else (CXmlFile.make "f" "").CreateEmpty) :=
  ⟨rfl, rfl, rfl,
    UpdateMetadata_literal ((CXmlFile.make "f" "").CreateEmpty)
      ⟨true, [XmlElem.node "FileZilla3" [] "" []]⟩ 0
      (XmlElem.node "FileZilla3" [] "" []) rfl rfl rfl⟩

/-- Claim C10: `Load` closes the current document before reading, so its
result does not depend on the previously loaded document or element; and
after a failed `Load` (null element returned) no document or element
remains loaded. -/
theorem Load_discards_state (st : CXmlFile) (fs : Fs) (ov : Bool)
    (d : Option XmlDoc) (i : Option Nat) :
    ({ st with m_document := d, m_element := i } : CXmlFile).Load fs ov =
        st.Load fs ov ∧
      ((st.Load fs ov).2.2 = none →
        (st.Load fs ov).2.1.m_document = none ∧
          (st.Load fs ov).2.1.m_element = none) := by
  constructor
  · unfold CXmlFile.Load
    unfold CXmlFile.Close
    simp only []
  · intro hnone
    rcases hres : st.Load fs ov with ⟨fs2, st2, ret⟩
    rw [hres] at hnone
    simp only [] at hnone
    simp only [hres]
    unfold CXmlFile.Load at hres
    simp only [] at hres
    split at hres
    · cases hres
      exact ⟨rfl, rfl⟩
    · split at hres
      · rename_i hgx1
        cases hres
        have := (GetXmlFile_spec _ fs _).1 hgx1
        rw [hnone] at this
        simp at this
      · split at hres
        · split at hres
          · rename_i hgx2 hce
            cases hres
            rw [CreateEmpty_GetElement] at hnone
            simp at hnone
          · rename_i hgx2 hce
            cases hres
            rw [Bool.not_eq_true] at hgx2
            have := (GetXmlFile_spec _ fs _).2 hgx2
            exact ⟨this.1, this.2⟩
        · rename_i hgx2
          cases hres
          have hr2 := not_not.mp hgx2
          have hsome := (GetXmlFile_spec _ fs _).1 hr2
          simp only [CXmlFile.GetElement] at hnone hsome
          rw [hnone] at hsome
          simp at hsome

theorem Load_discards_state_witness :
    (c10st.Load c10fs false).2.2 = none ∧
      (c10st.Load c10fs false).2.1.m_document = none ∧
      (c10st.Load c10fs false).2.1.m_element = none ∧
      ({ c10st with m_document := some ⟨true, []⟩, m_element := some 0 } : CXmlFile).Load c10fs false =
        c10st.Load c10fs false :=
  ⟨rfl,
    ((Load_discards_state c10st c10fs false (some ⟨true, []⟩) (some 0)).2
      rfl).1,
    ((Load_discards_state c10st c10fs false (some ⟨true, []⟩) (some 0)).2
      rfl).2,
    (Load_discards_state c10st c10fs false (some ⟨true, []⟩) (some 0)).1⟩
